import Mathlib

/-!
# Finbot document-discovery pipeline: a shallow embedding

This file embeds, in Lean, the document discovery / deduplication /
classification pipeline of the Finbot repository:

* `scrape_comprehensive.py` — `verify_pdf_url`, `classify_document_branch`,
  `extract_document_info`, `get_existing_pdf_urls`, `run_comprehensive_scraping`;
* `scrape_by_branch.py` — `verify_pdf_url` (same code), `extract_document_info`,
  `run_branch_scraping`;
* `scrape_real.py` — `verify_pdf`, `extract_gr_number`, `extract_date`,
  `extract_branch`, `extract_subject`, `scrape_page_for_pdfs` (verification /
  record-building part);
* `src/core/database.py` — `DatabaseManager.insert_documents`;
* `insert_correct_schema.py` — the batch-insert loop with per-record fallback.

Network I/O (HTTP responses and exceptions), the process-dependent Python
`hash`, and the wall clock are modelled as explicit inputs.  Python regular
expression search (`re.search`) is embedded for the exact pattern subset the
scrapers use: concatenations of literals (optionally case-insensitive for
`re.IGNORECASE`) and character classes under the quantifiers `?`, `*`, `+`
and bounded repetitions, with the leftmost, greedy, backtracking semantics
of the `re` module.  Character classes (`\d`, `\w`, `\s`, `[A-Z]`) are
modelled at ASCII granularity; every concrete input used in a theorem below
is chosen so that the ASCII reading and Python's reading agree.
-/

namespace Finbot

/-! ## Character classes (ASCII readings of the classes used in the patterns) -/

/-- Python `\s` (ASCII range): space, tab, newline, carriage return,
vertical tab, form feed. -/
def isSpaceCh (c : Char) : Bool :=
  c = ' ' || c = '\t' || c = '\n' || c = '\r' || c = '\x0b' || c = '\x0c'

/-- Python `\d` (ASCII range). -/
def isDigitCh (c : Char) : Bool := c.isDigit

/-- Python `\w` (ASCII range): letters, digits, underscore. -/
def isWordCh (c : Char) : Bool := c.isAlphanum || c = '_'

/-- The class `[^\s]`. -/
def isNotSpaceCh (c : Char) : Bool := ! isSpaceCh c

/-- The class `[\-\/]`. -/
def isDashSlashCh (c : Char) : Bool := c = '-' || c = '/'

/-- The class `[-_]`. -/
def isDashUndCh (c : Char) : Bool := c = '-' || c = '_'

/-- The class `[A-Z]`. -/
def isUpperCh (c : Char) : Bool := c.isUpper

/-- The class `[A-Z]` under `re.IGNORECASE`, i.e. any ASCII letter. -/
def isAlphaCh (c : Char) : Bool := c.isAlpha

/-- The class `[^_]`. -/
def isNotUndCh (c : Char) : Bool := ! (c = '_')

/-! ## A regular-expression engine for the scrapers' pattern subset

A pattern is a list of elements; an element is a literal character (with a
case-insensitivity flag, for patterns compiled with `re.IGNORECASE`) or a
character class under a quantifier.  `matchSeq` is the standard greedy
backtracking matcher; it is written with a fuel argument so that it is
structurally recursive and computes by `rfl`/`decide`.  Every recursive call
strictly decreases `elems.length + chars.length`, so the fuel
`elems.length + chars.length + 1` passed by `matchHere` can never run out:
with that fuel the function implements exactly the backtracking semantics. -/

inductive Quant where
  | one : Quant
  | opt : Quant
  | star : Quant
  | plus : Quant
deriving Repr, DecidableEq

inductive Elem where
  | lit (a : Char) (ci : Bool) : Elem
  | cls (p : Char → Bool) (q : Quant) : Elem

/-- Does a literal element accept character `c`?  With `ci` set the
comparison is on lowercased characters, as under `re.IGNORECASE`. -/
def litAccepts (a : Char) (ci : Bool) (c : Char) : Bool :=
  if ci then a.toLower = c.toLower else a = c

/-- Greedy backtracking matcher: `matchSeq fuel es cs` tries to match the
pattern `es` against a prefix of `cs`, returning the matched prefix
(longest-first for `*`, `+`, `?`, with backtracking), like Python's `re`
matching a pattern anchored at the current position. -/
def matchSeq : Nat → List Elem → List Char → Option (List Char)
  | 0, _, _ => none
  | _ + 1, [], _ => some []
  | f + 1, e :: es, cs =>
    match e, cs with
    | .lit _ _, [] => none
    | .lit a ci, c :: cs' =>
      if litAccepts a ci c then (matchSeq f es cs').map (c :: ·) else none
    | .cls _ .one, [] => none
    | .cls p .one, c :: cs' =>
      if p c then (matchSeq f es cs').map (c :: ·) else none
    | .cls _ .plus, [] => none
    | .cls p .plus, c :: cs' =>
      if p c then (matchSeq f (.cls p .star :: es) cs').map (c :: ·) else none
    | .cls _ .opt, [] => matchSeq f es []
    | .cls p .opt, c :: cs' =>
      if p c then
        match matchSeq f es cs' with
        | some m => some (c :: m)
        | none => matchSeq f es (c :: cs')
      else matchSeq f es (c :: cs')
    | .cls _ .star, [] => matchSeq f es []
    | .cls p .star, c :: cs' =>
      if p c then
        match matchSeq f (.cls p .star :: es) cs' with
        | some m => some (c :: m)
        | none => matchSeq f es (c :: cs')
      else matchSeq f es (c :: cs')

/-- Match the pattern anchored at the start of `cs`. -/
def matchHere (pat : List Elem) (cs : List Char) : Option (List Char) :=
  matchSeq (pat.length + cs.length + 1) pat cs

/-- Try the pattern at each start position, leftmost first — the search
order of `re.search`. -/
def searchFrom (pat : List Elem) : List Char → Option (List Char)
  | [] => matchHere pat []
  | c :: cs =>
    match matchHere pat (c :: cs) with
    | some m => some m
    | none => searchFrom pat cs

/-- `re.search(pat, s)`, returning `match.group(0)`. -/
def reSearch (pat : List Elem) (s : String) : Option String :=
  (searchFrom pat s.data).map (fun cs => ⟨cs⟩)

/-- First-match-wins cascade over an ordered pattern list — the scrapers'
`for pattern in patterns: ... break` loop. -/
def firstMatch (pats : List (List Elem)) (s : String) : Option String :=
  match pats with
  | [] => none
  | p :: ps =>
    match reSearch p s with
    | some m => some m
    | none => firstMatch ps s

/-! ## Python string helpers -/

/-- Python's substring test `needle in hay`. -/
def subIn (needle hay : String) : Bool :=
  go needle.data hay.data
where
  go (n : List Char) : List Char → Bool
    | [] => n.isEmpty
    | c :: cs => n.isPrefixOf (c :: cs) || go n cs

/-- Python `str.strip()` (whitespace strip). -/
def pyStrip (s : String) : String :=
  ⟨((s.data.dropWhile isSpaceCh).reverse.dropWhile isSpaceCh).reverse⟩

/-- Value of an ASCII digit list, `none` if empty or not all digits. -/
def digitsToNat (ds : List Char) : Option Nat :=
  if ds.isEmpty then none
  else if ds.all Char.isDigit then
    some (ds.foldl (fun a c => a * 10 + (c.toNat - '0'.toNat)) 0)
  else none

/-- Python `int(s)` on a string: optional surrounding whitespace, optional
sign, at least one ASCII digit; `none` models the `ValueError` raised
otherwise. -/
def pyInt? (s : String) : Option Int :=
  let cs := ((s.data.dropWhile isSpaceCh).reverse.dropWhile isSpaceCh).reverse
  match cs with
  | '+' :: ds => (digitsToNat ds).map Int.ofNat
  | '-' :: ds => (digitsToNat ds).map (fun n => -(n : Int))
  | ds => (digitsToNat ds).map Int.ofNat

/-- Python `url.split('/')[-1]`: the characters after the last slash (the
whole string when there is none). -/
def splitLast (url : String) : String :=
  ⟨(url.data.reverse.takeWhile (fun c => ! (c = '/'))).reverse⟩

/-- Python `s.replace(pat, rep)` on character lists: left-to-right,
non-overlapping replacement of every occurrence.  The fuel argument makes
the recursion structural; callers pass the list length, which suffices
since each step consumes at least one character. -/
def replaceGo (pat rep : List Char) : Nat → List Char → List Char
  | 0, cs => cs
  | _ + 1, [] => []
  | fuel + 1, c :: cs =>
    if pat.isPrefixOf (c :: cs) then
      rep ++ replaceGo pat rep fuel (cs.drop (pat.length - 1))
    else c :: replaceGo pat rep fuel cs

/-- Python `s.replace(pat, rep)` for strings. -/
def pyReplace (s pat rep : String) : String :=
  ⟨replaceGo pat.data rep.data s.data.length s.data⟩

/-- Python `s.replace('.pdf', '').replace('.PDF', '')` — note `replace`
removes every occurrence, not just an extension. -/
def stripPdfExt (s : String) : String :=
  pyReplace (pyReplace s ".pdf" "") ".PDF" ""

/-- Python `s.lower()` (ASCII case folding, which agrees with Python on
every string these scripts handle). -/
def pyLower (s : String) : String :=
  ⟨s.data.map Char.toLower⟩

/-- Python `s[:n]`. -/
def pyTake (s : String) (n : Nat) : String :=
  ⟨s.data.take n⟩

/-! ## The scrapers' regular-expression patterns -/

/-- A case-sensitive literal element. -/
def lit1 (a : Char) : Elem := .lit a false

/-- A sequence of case-sensitive literal elements. -/
def litsOf (s : String) : List Elem := s.data.map (fun c => Elem.lit c false)

/-- A sequence of case-insensitive literal elements (`re.IGNORECASE`). -/
def ilitsOf (s : String) : List Elem := s.data.map (fun c => Elem.lit c true)

/-- The common tail `[^\s]*[\-\/]*\d+[^\s]*` of the two leading `gr_patterns`
of `scrape_by_branch.py` / `scrape_comprehensive.py`. -/
def grTail : List Elem :=
  [.cls isNotSpaceCh .star, .cls isDashSlashCh .star,
   .cls isDigitCh .plus, .cls isNotSpaceCh .star]

/-- `gr_patterns` of `scrape_by_branch.extract_document_info` and
`scrape_comprehensive.extract_document_info` (identical lists):
`પગર[^\s]*[\-\/]*\d+[^\s]*`, `GR[^\s]*[\-\/]*\d+[^\s]*`, `\w+\-\d+\-\d+\-\w+`,
`[A-Z]+_\d+_[^_]+_\d+`, `Cir_\d+_[^_]+_\d+`, `Rule_\d+_[^_]+_\d+`,
`Not_\d+_[^_]+_\d+`. -/
def grPatternsBranch : List (List Elem) :=
  [ litsOf "પગર" ++ grTail,
    litsOf "GR" ++ grTail,
    [.cls isWordCh .plus, lit1 '-', .cls isDigitCh .plus, lit1 '-',
     .cls isDigitCh .plus, lit1 '-', .cls isWordCh .plus],
    [.cls isUpperCh .plus, lit1 '_', .cls isDigitCh .plus, lit1 '_',
     .cls isNotUndCh .plus, lit1 '_', .cls isDigitCh .plus],
    litsOf "Cir_" ++ [.cls isDigitCh .plus, lit1 '_', .cls isNotUndCh .plus,
      lit1 '_', .cls isDigitCh .plus],
    litsOf "Rule_" ++ [.cls isDigitCh .plus, lit1 '_', .cls isNotUndCh .plus,
      lit1 '_', .cls isDigitCh .plus],
    litsOf "Not_" ++ [.cls isDigitCh .plus, lit1 '_', .cls isNotUndCh .plus,
      lit1 '_', .cls isDigitCh .plus] ]

/-- `date_patterns` shared by the scrapers: `\d{1,2}[-\/]\w{3}[-\/]\d{2,4}`,
`\d{1,2}[-\/]\d{1,2}[-\/]\d{2,4}`, `\d{4}[-\/]\d{1,2}[-\/]\d{1,2}` — bounded
repetitions `{m,n}` are unrolled into `m` mandatory and `n - m` optional
class elements. -/
def datePatterns : List (List Elem) :=
  [ [.cls isDigitCh .one, .cls isDigitCh .opt, .cls isDashSlashCh .one,
     .cls isWordCh .one, .cls isWordCh .one, .cls isWordCh .one,
     .cls isDashSlashCh .one,
     .cls isDigitCh .one, .cls isDigitCh .one, .cls isDigitCh .opt, .cls isDigitCh .opt],
    [.cls isDigitCh .one, .cls isDigitCh .opt, .cls isDashSlashCh .one,
     .cls isDigitCh .one, .cls isDigitCh .opt, .cls isDashSlashCh .one,
     .cls isDigitCh .one, .cls isDigitCh .one, .cls isDigitCh .opt, .cls isDigitCh .opt],
    [.cls isDigitCh .one, .cls isDigitCh .one, .cls isDigitCh .one, .cls isDigitCh .one,
     .cls isDashSlashCh .one, .cls isDigitCh .one, .cls isDigitCh .opt,
     .cls isDashSlashCh .one, .cls isDigitCh .one, .cls isDigitCh .opt] ]

/-- `patterns` of `scrape_real.extract_gr_number`, compiled with
`re.IGNORECASE`: `GR[-_]?\d+[-_]?\d+[-_]?\w+`, `[A-Z]+[-_]\d+[-_]\d+[-_]\d+`,
`[A-Z]+_\d+_[^_]+_\d+`, `Rule[-_]?\d+[-_]?\w+`, `Not[-_]?\d+[-_]?\w+`,
`Cir[-_]?\d+[-_]?\w+`, `\d{4}[-_]\d{4}[-_]\w+`.  Under `IGNORECASE` the
class `[A-Z]` matches any ASCII letter and literals match both cases. -/
def grPatternsReal : List (List Elem) :=
  [ ilitsOf "GR" ++ [.cls isDashUndCh .opt, .cls isDigitCh .plus,
      .cls isDashUndCh .opt, .cls isDigitCh .plus,
      .cls isDashUndCh .opt, .cls isWordCh .plus],
    [.cls isAlphaCh .plus, .cls isDashUndCh .one, .cls isDigitCh .plus,
     .cls isDashUndCh .one, .cls isDigitCh .plus,
     .cls isDashUndCh .one, .cls isDigitCh .plus],
    [.cls isAlphaCh .plus, lit1 '_', .cls isDigitCh .plus, lit1 '_',
     .cls isNotUndCh .plus, lit1 '_', .cls isDigitCh .plus],
    ilitsOf "Rule" ++ [.cls isDashUndCh .opt, .cls isDigitCh .plus,
      .cls isDashUndCh .opt, .cls isWordCh .plus],
    ilitsOf "Not" ++ [.cls isDashUndCh .opt, .cls isDigitCh .plus,
      .cls isDashUndCh .opt, .cls isWordCh .plus],
    ilitsOf "Cir" ++ [.cls isDashUndCh .opt, .cls isDigitCh .plus,
      .cls isDashUndCh .opt, .cls isWordCh .plus],
    [.cls isDigitCh .one, .cls isDigitCh .one, .cls isDigitCh .one, .cls isDigitCh .one,
     .cls isDashUndCh .one,
     .cls isDigitCh .one, .cls isDigitCh .one, .cls isDigitCh .one, .cls isDigitCh .one,
     .cls isDashUndCh .one, .cls isWordCh .plus] ]

/-! ## HTTP model and `verify_pdf_url` / `verify_pdf`

An HTTP call either yields a response (status code, optional `Content-Type`
and `Content-Length` headers, the final resolved URL after redirects) or
raises.  One call of a verifier consumes the outcome of its HEAD request and,
if reached, of its GET request; both outcomes are inputs of the embedding. -/

structure HttpResponse where
  statusCode : Int
  contentType : Option String
  contentLength : Option String
  url : String
deriving Repr, DecidableEq

/-- An exception raised by the HTTP library during a request. -/
inductive NetExc where
  | timeout : NetExc
  | connectionError : NetExc
  | other (msg : String) : NetExc
deriving Repr, DecidableEq

/-- The outcomes of the HEAD and GET requests a verifier may issue for one
URL. -/
structure HttpEnv where
  headResult : Except NetExc HttpResponse
  getResult : Except NetExc HttpResponse

/-- The result dictionary of `verify_pdf_url` / `verify_pdf`.  `statusCode`,
`fallbackUrl` and `errMsg` are `none` when the corresponding key is absent
or `None` in the Python dict. -/
structure VerifyResult where
  valid : Bool
  url : String
  statusCode : Option Int
  fallbackUrl : Option String
  message : String
  errMsg : Option String
deriving Repr, DecidableEq

/-- An exception propagating inside the body of `verify_pdf_url`: a
`requests` exception from HEAD/GET, or the `ValueError` of
`int(content_length)` on an unparseable header. -/
inductive PyExc where
  | timeout : PyExc
  | connectionError : PyExc
  | valueError (msg : String) : PyExc
  | netOther (msg : String) : PyExc
deriving Repr, DecidableEq

/-- Re-raise a `requests` exception inside the body. -/
def liftNet : Except NetExc HttpResponse → Except PyExc HttpResponse
  | .ok r => .ok r
  | .error .timeout => .error .timeout
  | .error .connectionError => .error .connectionError
  | .error (.other m) => .error (.netOther m)

/-- `int(response.headers.get('Content-Length', 0))`: a missing header
defaults to the integer `0`; a present header is parsed with `int`, raising
`ValueError` when unparseable. -/
def parseContentLength : Option String → Except PyExc Int
  | none => .ok 0
  | some s =>
    match pyInt? s with
    | some n => .ok n
    | none => .error (.valueError ("invalid literal for int() with base 10: " ++ s))

/-- The success dictionary shared by both valid branches of
`verify_pdf_url`. -/
def validDirect (pdfUrl : String) (status : Int) : VerifyResult :=
  { valid := true, url := pdfUrl, statusCode := some status,
    fallbackUrl := none, message := "PDF accessible directly", errMsg := none }

/-- The GET phase of `verify_pdf_url` (reached when the HEAD shortcut did
not return). -/
def verifyGetPhase (getResult : Except NetExc HttpResponse) (pdfUrl : String) :
    Except PyExc VerifyResult :=
  match liftNet getResult with
  | .error e => .error e
  | .ok g =>
    if g.statusCode = 200 then
      if subIn "pdf" (pyLower (g.contentType.getD "")) then
        .ok (validDirect pdfUrl g.statusCode)
      else
        .ok { valid := false, url := pdfUrl, statusCode := some g.statusCode,
              fallbackUrl := some g.url,
              message := "PDF not directly accessible - use fallback page link",
              errMsg := none }
    else
      .ok { valid := false, url := pdfUrl, statusCode := some g.statusCode,
            fallbackUrl := none,
            message := "PDF not accessible (HTTP " ++ toString g.statusCode ++ ")",
            errMsg := none }

/-- Body of `verify_pdf_url` (`scrape_comprehensive.py` lines 112-159 and the
identical `scrape_by_branch.py` lines 47-94), with exceptions explicit: HEAD
shortcut (status 200 and: Content-Type contains "pdf", short-circuiting, or
else `int(Content-Length) > 0`, which may raise), then the GET phase. -/
def verifyBody (env : HttpEnv) (pdfUrl : String) : Except PyExc VerifyResult :=
  match liftNet env.headResult with
  | .error e => .error e
  | .ok head =>
    if head.statusCode = 200 then
      if subIn "pdf" (pyLower (head.contentType.getD "")) then
        .ok (validDirect pdfUrl head.statusCode)
      else
        match parseContentLength head.contentLength with
        | .error e => .error e
        | .ok n =>
          if n > 0 then .ok (validDirect pdfUrl head.statusCode)
          else verifyGetPhase env.getResult pdfUrl
    else verifyGetPhase env.getResult pdfUrl

/-- `verify_pdf_url` of `scrape_comprehensive.py` / `scrape_by_branch.py`:
the body wrapped in the `try`/`except` cascade (Timeout, ConnectionError,
generic Exception), so the function is total at its interface. -/
def verify_pdf_url (env : HttpEnv) (pdfUrl : String) : VerifyResult :=
  match verifyBody env pdfUrl with
  | .ok r => r
  | .error .timeout =>
    { valid := false, url := pdfUrl, statusCode := none, fallbackUrl := none,
      message := "Request timed out - try accessing via fallback page",
      errMsg := some "Request timeout" }
  | .error .connectionError =>
    { valid := false, url := pdfUrl, statusCode := none, fallbackUrl := none,
      message := "Connection error - try accessing via fallback page",
      errMsg := some "Connection error" }
  | .error (.valueError m) =>
    { valid := false, url := pdfUrl, statusCode := none, fallbackUrl := none,
      message := "Error: " ++ m, errMsg := some m }
  | .error (.netOther m) =>
    { valid := false, url := pdfUrl, statusCode := none, fallbackUrl := none,
      message := "Error: " ++ m, errMsg := some m }

/-- The GET phase of `scrape_real.verify_pdf`. -/
def verifyRealGetPhase (getResult : Except NetExc HttpResponse) (pdfUrl : String) :
    Except PyExc VerifyResult :=
  match liftNet getResult with
  | .error e => .error e
  | .ok g =>
    if g.statusCode = 200 then
      if subIn "pdf" (pyLower (g.contentType.getD "")) then
        .ok { valid := true, url := pdfUrl, statusCode := some g.statusCode,
              fallbackUrl := none, message := "PDF accessible directly",
              errMsg := none }
      else
        .ok { valid := false, url := pdfUrl, statusCode := some g.statusCode,
              fallbackUrl := some g.url, message := "Content is not a PDF",
              errMsg := none }
    else
      .ok { valid := false, url := pdfUrl, statusCode := some g.statusCode,
            fallbackUrl := none,
            message := "HTTP " ++ toString g.statusCode, errMsg := none }

/-- Body of `scrape_real.verify_pdf` (lines 28-70): like `verify_pdf_url`
but the HEAD shortcut needs `Content-Type` to contain "pdf" or
`Content-Length` (default the string '0') above 1000, and the result
dictionaries differ. -/
def verifyRealBody (env : HttpEnv) (pdfUrl : String) : Except PyExc VerifyResult :=
  match liftNet env.headResult with
  | .error e => .error e
  | .ok head =>
    if head.statusCode = 200 then
      if subIn "pdf" (pyLower (head.contentType.getD "")) then
        .ok { valid := true, url := pdfUrl, statusCode := some head.statusCode,
              fallbackUrl := none, message := "PDF accessible directly",
              errMsg := none }
      else
        match parseContentLength (some (head.contentLength.getD "0")) with
        | .error e => .error e
        | .ok n =>
          if n > 1000 then
            .ok { valid := true, url := pdfUrl, statusCode := some head.statusCode,
                  fallbackUrl := none, message := "PDF accessible directly",
                  errMsg := none }
          else verifyRealGetPhase env.getResult pdfUrl
    else verifyRealGetPhase env.getResult pdfUrl

/-- `scrape_real.verify_pdf` with its `except` cascade. -/
def verify_pdf (env : HttpEnv) (pdfUrl : String) : VerifyResult :=
  match verifyRealBody env pdfUrl with
  | .ok r => r
  | .error .timeout =>
    { valid := false, url := pdfUrl, statusCode := none, fallbackUrl := none,
      message := "Request timeout", errMsg := none }
  | .error .connectionError =>
    { valid := false, url := pdfUrl, statusCode := none, fallbackUrl := none,
      message := "Connection error", errMsg := none }
  | .error (.valueError m) =>
    { valid := false, url := pdfUrl, statusCode := none, fallbackUrl := none,
      message := m, errMsg := none }
  | .error (.netOther m) =>
    { valid := false, url := pdfUrl, statusCode := none, fallbackUrl := none,
      message := m, errMsg := none }

/-! ## Records, links and the run environment -/

/-- The document record the scrapers build (the union of the dict keys of
the three scripts; `subject_ur` and `source_page` are `none` where the
script omits the key). -/
structure DocRecord where
  gr_no : String
  date : String
  subject_en : String
  subject_ur : Option String
  branch : String
  pdf_url : String
  pdf_valid : Bool
  fallback_url : Option String
  pdf_status : String
  navigation_route : String
  scraped_at : String
  source_page : Option String
  source_page_url : String
deriving Repr, DecidableEq

/-- A row already present in storage, as consumed by the dedup logic
(`search_documents({})` projected to `pdf_url`, `get_documents_by_branch`
projected to a count). -/
structure StoredDoc where
  pdf_url : String
  branch : String
deriving Repr, DecidableEq

/-- A raw PDF anchor as produced by page scraping, before the per-script
bookkeeping fields are attached. -/
structure RawLink where
  url : String
  text : String
  context : String
  page_url : String
  navigation_route : String
deriving Repr, DecidableEq

/-- A `pdf_links` entry of `scrape_by_branch.scrape_branch_documents`. -/
structure BranchLink where
  url : String
  text : String
  context : String
  branch_name : String
  branch_value : String
  page_url : String
  navigation_route : String
deriving Repr, DecidableEq

/-- A `pdf_links` entry of `scrape_comprehensive.scrape_page_for_pdfs`. -/
structure PageLink where
  url : String
  text : String
  context : String
  page_source : String
  page_url : String
  navigation_route : String
deriving Repr, DecidableEq

/-- A `pdf_links` entry of `scrape_real.scrape_page_for_pdfs`. -/
structure RealLink where
  url : String
  text : String
  context : String
  page_name : String
  page_url : String
deriving Repr, DecidableEq

/-- The ambient effects a scraping run consumes: the network (outcomes of
the HEAD/GET verification requests per URL), Python's process-seeded string
`hash`, and the wall clock (`datetime.now()` formatted two ways). -/
structure ScrapeEnv where
  http : String → HttpEnv
  pyHash : String → Int
  nowDate : String
  nowIso : String

/-! ## Metadata extraction -/

/-- The page-type tag of the hash fallback in
`scrape_by_branch.extract_document_info` (lines 244-252). -/
def pageTypeOf (url : String) : String :=
  let lu := pyLower url
  if subIn "circular" lu then "Cir"
  else if subIn "gr" lu then "GR"
  else if subIn "rule" lu then "Rule"
  else if subIn "notification" lu then "Not"
  else "DOC"

/-- The page-type tag of `scrape_real.extract_gr_number` (lines 110-120),
which adds a "budget" case. -/
def pageTypeOfReal (url : String) : String :=
  let lu := pyLower url
  if subIn "circular" lu then "Cir"
  else if subIn "gr" lu then "GR"
  else if subIn "rule" lu then "Rule"
  else if subIn "notification" lu then "Not"
  else if subIn "budget" lu then "Bud"
  else "DOC"

/-- GR-number extraction of `scrape_by_branch.extract_document_info`
(lines 218-253): first regex match over `text + " " + context`; on Python
falsiness of the result (`if not gr_no`, conflating `None` and the empty
string, modelled by `getD ""`), fall back to the URL filename when it
contains a separator, else to the page-type tag joined to
`hash(url) % 100000`. -/
def extractGrNoBranch (pyHash : String → Int) (text ctx url : String) : String :=
  let combined := text ++ " " ++ ctx
  let gr0 := (firstMatch grPatternsBranch combined).getD ""
  if gr0 = "" then
    let urlParts := stripPdfExt (splitLast url)
    if subIn "_" urlParts || subIn "-" urlParts then urlParts
    else pageTypeOf url ++ "_" ++ toString (pyHash url % 100000)
  else gr0

/-- GR-number extraction of `scrape_comprehensive.extract_document_info`
(lines 312-333): the sentinel is the string "Unknown" and there is no hash
fallback — when the filename has no separator the sentinel is returned. -/
def extractGrNoComp (text ctx url : String) : String :=
  let combined := text ++ " " ++ ctx
  let gr0 := (firstMatch grPatternsBranch combined).getD "Unknown"
  if gr0 = "Unknown" then
    let urlParts := stripPdfExt (splitLast url)
    if subIn "_" urlParts || subIn "-" urlParts then urlParts
    else "Unknown"
  else gr0

/-- Date extraction shared by `scrape_by_branch` / `scrape_comprehensive`
(first matching `date_patterns` entry, else the scrape date). -/
def extractDate (nowDate combined : String) : String :=
  (firstMatch datePatterns combined).getD nowDate

/-- Subject derivation of `scrape_by_branch` / `scrape_comprehensive`
(text, else context, else a placeholder from the branch/page name, truncated
to 200 characters with an ellipsis marker). -/
def mkSubject (text ctx fallbackName : String) : String :=
  let subject := if text ≠ "" && (pyStrip text).length > 0 then text else ctx
  let subject :=
    if subject = "" || (pyStrip subject).length = 0 then fallbackName ++ " Document"
    else subject
  if subject.length > 200 then pyTake subject 200 ++ "..." else subject

/-- Keyword list of branch "M-(Pay of Government Employee)" in
`scrape_comprehensive.classify_document_branch`, copied verbatim from the
source. -/
def kwPayComp : List String :=
  ["pay", "salary", "scale", "grade", "allowance", "increment",
   "employee", "service", "વேતન", "પગાર", "કર્મચારી"]

/-- Keyword list of branch "PayCell-(Pay Commission)". -/
def kwPayCellComp : List String :=
  ["commission", "committee", "pay commission", "કમિશન", "સમિતિ"]

/-- Keyword list of branch "K-(Budget)". -/
def kwBudgetComp : List String :=
  ["budget", "allocation", "expenditure", "appropriation",
   "બજેટ", "फाळवणी", "खर्च"]

/-- Keyword list of branch "P-(Pension)". -/
def kwPensionComp : List String :=
  ["pension", "retirement", "gratuity", "provident fund",
   "પेnशन", "निवृत्ति", "भविष्य निधि"]

/-- The ordered `branch_keywords` mapping of
`scrape_comprehensive.classify_document_branch` (lines 238-278), with the
source's keyword strings copied verbatim (the four lists named above are
spelled out here through their definitions). -/
def branchKeywordsComp : List (String × List String) :=
  [ ("M-(Pay of Government Employee)", kwPayComp),
    ("PayCell-(Pay Commission)", kwPayCellComp),
    ("K-(Budget)", kwBudgetComp),
    ("A-(Public Sector Undertaking)",
     ["psu", "undertaking", "corporation", "enterprise", "company",
      "ઉદ્યોગ", "કંપની", "નિગમ"]),
    ("CH-(Service Matter)",
     ["service", "recruitment", "promotion", "transfer", "posting",
      "સে঵ा", "भरती", "बढती"]),
    ("N-(Banking)",
     ["bank", "banking", "treasury", "deposit", "account",
      "બेnek", "ખજાનો", "ખાતું"]),
    ("P-(Pension)", kwPensionComp),
    ("T-(Treasury)",
     ["treasury", "cash", "payment", "receipt", "transaction",
      "खजाना", "नकद", "भुगतान"]),
    ("F-(Finance Code)",
     ["finance code", "financial rules", "procedure", "manual",
      "नियम", "प्रक्रिया"]),
    ("AU-(Audit)",
     ["audit", "inspection", "examination", "review",
      "ओडिट", "निरीक्षण", "समीक्षा"]) ]

/-- Does any keyword of the list occur in the string? -/
def kwHit (s : String) (kws : List String) : Bool :=
  kws.any (fun k => subIn k s)

/-- The closed branch enumeration `classify_document_branch` can return:
the ten keyword-mapped branch codes (every page-source default is also one
of them). -/
def branchEnumComp : List String :=
  branchKeywordsComp.map (fun p => p.1)

set_option linter.unusedVariables false in
/-- `scrape_comprehensive.classify_document_branch` (lines 234-297):
first keyword-matching branch over the lowercased concatenation of text,
context and page source (the `url` parameter is unused in the source, as
here), else a page-source-driven default, else the hardcoded default. -/
def classify_document_branch (text ctx url pageSource : String) : String :=
  let combined := pyLower (text ++ " " ++ ctx ++ " " ++ pageSource)
  match branchKeywordsComp.find? (fun p => kwHit combined p.2) with
  | some p => p.1
  | none =>
    let ps := pyLower pageSource
    if subIn "gr" ps || subIn "resolution" ps then "M-(Pay of Government Employee)"
    else if subIn "circular" ps then "PayCell-(Pay Commission)"
    else if subIn "budget" ps then "K-(Budget)"
    else if subIn "treasury" ps then "T-(Treasury)"
    else if subIn "pension" ps then "P-(Pension)"
    else if subIn "audit" ps then "AU-(Audit)"
    else "M-(Pay of Government Employee)"

/-- `scrape_by_branch.extract_document_info` (lines 206-288).  In the
embedding the body has no failure mode, so the `try`/`except None` wrapper
always takes the success path and a record is always produced. -/
def extract_document_info_branch (env : ScrapeEnv) (l : BranchLink) : DocRecord :=
  let verification := verify_pdf_url (env.http l.url) l.url
  let combined := l.text ++ " " ++ l.context
  { gr_no := extractGrNoBranch env.pyHash l.text l.context l.url,
    date := extractDate env.nowDate combined,
    subject_en := mkSubject l.text l.context l.branch_name,
    subject_ur := some "",
    branch := l.branch_name,
    pdf_url := l.url,
    pdf_valid := verification.valid,
    fallback_url := verification.fallbackUrl,
    pdf_status := verification.message,
    navigation_route := l.navigation_route,
    scraped_at := env.nowIso,
    source_page := none,
    source_page_url := l.page_url }

/-- `scrape_comprehensive.extract_document_info` (lines 299-373). -/
def extract_document_info_comp (env : ScrapeEnv) (l : PageLink) : DocRecord :=
  let verification := verify_pdf_url (env.http l.url) l.url
  let combined := l.text ++ " " ++ l.context
  { gr_no := extractGrNoComp l.text l.context l.url,
    date := extractDate env.nowDate combined,
    subject_en := mkSubject l.text l.context l.page_source,
    subject_ur := some "",
    branch := classify_document_branch l.text l.context l.url l.page_source,
    pdf_url := l.url,
    pdf_valid := verification.valid,
    fallback_url := verification.fallbackUrl,
    pdf_status := verification.message,
    navigation_route := l.navigation_route,
    scraped_at := env.nowIso,
    source_page := some l.page_source,
    source_page_url := l.page_url }

/-! ## `scrape_real.py` extraction helpers -/

/-- `re.sub(r'[^A-Za-z0-9\-_]', '-', s)` on the character list. -/
def cleanChars (s : String) : List Char :=
  s.data.map (fun c => if c.isAlphanum || c = '-' || c = '_' then c else '-')

/-- `re.sub(r'-+', '-', s)`: collapse each run of dashes to one dash. -/
def collapseDash (cs : List Char) : List Char :=
  cs.foldr
    (fun c acc =>
      if c = '-' && (match acc with | '-' :: _ => true | _ => false) then acc
      else c :: acc) []

/-- `s.strip('-')`. -/
def stripDash (cs : List Char) : List Char :=
  ((cs.dropWhile (· = '-')).reverse.dropWhile (· = '-')).reverse

/-- `re.sub(r'\s+', ' ', s)`: collapse each whitespace run to one space. -/
def collapseWs (cs : List Char) : List Char :=
  cs.foldr
    (fun c acc =>
      if isSpaceCh c && (match acc with | ' ' :: _ => true | _ => false) then acc
      else (if isSpaceCh c then ' ' else c) :: acc) []

/-- `scrape_real.extract_gr_number` (lines 79-122): case-insensitive regex
cascade over `text + " " + url`; else the cleaned URL filename when it is
longer than 3 and its cleaned form longer than 5; else the page-type tag
joined to `hash(url) % 100000`. -/
def extract_gr_number (pyHash : String → Int) (text url : String) : String :=
  let combined := text ++ " " ++ url
  match firstMatch grPatternsReal combined with
  | some m => m
  | none =>
    let urlParts := stripPdfExt (splitLast url)
    let hashFallback := pageTypeOfReal url ++ "_" ++ toString (pyHash url % 100000)
    if urlParts ≠ "" && urlParts.length > 3 then
      let grLike : String := ⟨stripDash (collapseDash (cleanChars urlParts))⟩
      if grLike.length > 5 then grLike else hashFallback
    else hashFallback

/-- `scrape_real.extract_date` (lines 124-140). -/
def extract_date_real (nowDate text : String) : String :=
  if text = "" then nowDate
  else (firstMatch datePatterns text).getD nowDate

/-- The `branch_keywords` mapping of `scrape_real.extract_branch`
(lines 146-159). -/
def branchKeywordsReal : List (String × List String) :=
  [ ("M-(Pay of Government Employee)",
     ["pay", "salary", "scale", "grade", "allowance", "increment",
      "employee", "service"]),
    ("PayCell-(Pay Commission)", ["commission", "committee", "pay commission"]),
    ("K-(Budget)", ["budget", "allocation", "expenditure", "appropriation"]),
    ("A-(Public Sector Undertaking)", ["psu", "undertaking", "corporation", "company"]),
    ("CH-(Service Matter)",
     ["service", "recruitment", "promotion", "transfer", "posting"]),
    ("N-(Banking)", ["bank", "banking", "treasury", "deposit"]),
    ("P-(Pension)", ["pension", "retirement", "gratuity", "provident"]),
    ("T-(Treasury)", ["treasury", "cash", "payment", "receipt"]),
    ("F-(Finance Code)", ["finance code", "financial rules", "procedure", "manual"]),
    ("AU-(Audit)", ["audit", "inspection", "examination"]),
    ("Z-(Economy)", ["economy", "economic"]),
    ("GST Cell", ["gst", "goods and service tax"]) ]

/-- `scrape_real.extract_branch` (lines 142-175): the combined text here
includes the URL, and the defaults are URL-substring driven. -/
def extract_branch_real (text url ctx : String) : String :=
  let combined := pyLower (text ++ " " ++ ctx ++ " " ++ url)
  match branchKeywordsReal.find? (fun p => kwHit combined p.2) with
  | some p => p.1
  | none =>
    let lu := pyLower url
    if subIn "rule" lu then "F-(Finance Code)"
    else if subIn "notif" lu then "PayCell-(Pay Commission)"
    else if subIn "circular" lu then "PayCell-(Pay Commission)"
    else if subIn "gr" lu then "M-(Pay of Government Employee)"
    else "M-(Pay of Government Employee)"

/-- `scrape_real.extract_subject` (lines 177-189). -/
def extract_subject_real (text url : String) : String :=
  if text ≠ "" && (pyStrip text).length > 3 then
    let subject : String := ⟨collapseWs (pyStrip text).data⟩
    if subject.length > 200 then pyTake subject 200 ++ "..." else subject
  else
    let filename := stripPdfExt (splitLast url)
    let filename : String := ⟨filename.data.map (fun c => if c = '-' || c = '_' then ' ' else c)⟩
    if filename ≠ "" then pyTake filename 200 else "Government Document"

/-- `scrape_real.get_navigation_route`. -/
def get_navigation_route (pageName : String) : String :=
  "Home Page → " ++ pageName ++ " → Document"

/-- The record built for a verified link in `scrape_real.scrape_page_for_pdfs`
(lines 267-288); `pdf_valid`, `fallback_url` and `pdf_status` are hardcoded
there, and the dict has no `subject_ur` key. -/
def scrape_real_doc (env : ScrapeEnv) (l : RealLink) : DocRecord :=
  { gr_no := extract_gr_number env.pyHash l.text l.url,
    date := extract_date_real env.nowDate l.text,
    branch := extract_branch_real l.text l.url l.context,
    subject_en := extract_subject_real l.text l.url,
    subject_ur := none,
    pdf_url := l.url,
    pdf_valid := true,
    fallback_url := none,
    pdf_status := "Accessible",
    navigation_route := get_navigation_route l.page_name,
    scraped_at := env.nowIso,
    source_page := some l.page_name,
    source_page_url := l.page_url }

/-- The verification/processing loop of `scrape_real.scrape_page_for_pdfs`
(lines 262-291): each of the first `max_pdfs` links is verified, and ONLY
links whose verification is valid are turned into records — failed
verification drops the link. -/
def scrape_real_process (env : ScrapeEnv) (maxPdfs : Nat) (links : List RealLink) :
    List DocRecord :=
  (links.take maxPdfs).foldl
    (fun acc l =>
      let verification := verify_pdf (env.http l.url) l.url
      if verification.valid then acc ++ [scrape_real_doc env l] else acc) []

/-! ## Deduplication, quota and the run loops -/

/-- `get_existing_pdf_urls` of both scrapers: the `pdf_url` projection of
`search_documents({})` (set-ness is irrelevant to the membership tests the
runs perform). -/
def get_existing_pdf_urls (storage : List StoredDoc) : List String :=
  storage.map (fun d => d.pdf_url)

/-- The per-branch link loop of `scrape_by_branch.run_branch_scraping`
(lines 345-363): accept a link iff its URL is not in `existing_urls` AND the
per-branch counter is below target; on acceptance the record is appended,
the URL added to `existing_urls`, and the counter incremented. -/
def processBranchLinks (env : ScrapeEnv) (target : Nat) :
    List BranchLink → List String → List DocRecord → Nat →
    List String × List DocRecord
  | [], existing, acc, _ => (existing, acc)
  | l :: ls, existing, acc, count =>
    if l.url ∉ existing ∧ count < target then
      processBranchLinks env target ls (existing ++ [l.url])
        (acc ++ [extract_document_info_branch env l]) (count + 1)
    else
      processBranchLinks env target ls existing acc count

/-- `scrape_by_branch.scrape_branch_documents` (lines 145-204): the POST
round-trip and HTML parsing are the environment (`site`); its result rows
are tagged with the branch value/name of the loop iteration. -/
def scrape_branch_documents (site : String → String → List RawLink)
    (branchValue branchName : String) : List BranchLink :=
  (site branchValue branchName).map
    (fun r =>
      { url := r.url, text := r.text, context := r.context,
        branch_name := branchName, branch_value := branchValue,
        page_url := r.page_url, navigation_route := r.navigation_route })

/-- The branch loop of `run_branch_scraping` (lines 336-375): a branch with
at least 10 documents already in storage is skipped; otherwise its links run
through `processBranchLinks`, threading `existing_urls` and accumulating
`all_new_documents` across branches. -/
def runBranchGo (env : ScrapeEnv) (site : String → String → List RawLink)
    (storage : List StoredDoc) (target : Nat) :
    List (String × String) → List String → List DocRecord → List DocRecord
  | [], _, acc => acc
  | (bv, bn) :: rest, existing, acc =>
    if 10 ≤ (storage.filter (fun d => d.branch = bn)).length then
      runBranchGo env site storage target rest existing acc
    else
      let links := scrape_branch_documents site bv bn
      let res := processBranchLinks env target links existing acc 0
      runBranchGo env site storage target rest res.1 res.2

/-- The hardcoded `branches` list of `run_branch_scraping` (lines 304-326). -/
def branchesList : List (String × String) :=
  [ ("1", "A-(Public Sector Undertaking)"),
    ("2", "CH-(Service Matter)"),
    ("3", "K-(Budget)"),
    ("4", "M-(Pay of Government Employee)"),
    ("5", "PayCell-(Pay Commission)"),
    ("6", "N-(Banking)"),
    ("7", "P-(Pension)"),
    ("8", "T-(Local Establishment)"),
    ("9", "TH-(Value Added Tax)"),
    ("10", "TH-3-(Commercial Tax Establishment)"),
    ("11", "Z-(Treasury)"),
    ("12", "Z-1-(Economy)"),
    ("13", "G-(Audit Para)"),
    ("14", "GH-(Accounts Cadre Establishment)"),
    ("15", "FR-(Financial Resources)"),
    ("16", "DMO-(Debt Management)"),
    ("17", "GO Cell-(Government Companies)"),
    ("18", "B-RTI Cell-(Small Savings RTI)"),
    ("19", "KH"),
    ("20", "PMU-Cell"),
    ("1024", "GST Cell") ]

/-- `scrape_by_branch.run_branch_scraping` (lines 299-403), parameterised by
the branch list (the script fixes it to `branchesList`): seeds
`existing_urls` from storage and returns `all_new_documents`. -/
def run_branch_scraping (env : ScrapeEnv) (site : String → String → List RawLink)
    (storage : List StoredDoc) (branches : List (String × String)) (target : Nat) :
    List DocRecord :=
  runBranchGo env site storage target branches (get_existing_pdf_urls storage) []

/-- Lookup in the `branch_documents` dict (an insertion-ordered association
list, like a Python dict). -/
def bdGet (bd : List (String × List DocRecord)) (b : String) : List DocRecord :=
  match bd.find? (fun p => p.1 = b) with
  | some p => p.2
  | none => []

/-- `if branch not in branch_documents: branch_documents[branch] = []`. -/
def bdEnsure (bd : List (String × List DocRecord)) (b : String) :
    List (String × List DocRecord) :=
  if (bd.find? (fun p => p.1 = b)).isSome then bd else bd ++ [(b, [])]

/-- `branch_documents[branch].append(doc)`. -/
def bdAppend : List (String × List DocRecord) → String → DocRecord →
    List (String × List DocRecord)
  | [], b, d => [(b, [d])]
  | (k, ds) :: rest, b, d =>
    if k = b then (k, ds ++ [d]) :: rest else (k, ds) :: bdAppend rest b d

/-- The dedup/quota loop of `scrape_comprehensive.run_comprehensive_scraping`
(lines 402-426): links already in `existing_urls` are skipped; for the rest
a record is extracted and appended to its branch bucket only while the
bucket holds fewer than `target_per_branch` records.  Note `existing_urls`
is NOT grown inside the loop. -/
def processCompLinks (env : ScrapeEnv) (target : Nat) (existing : List String) :
    List PageLink → List (String × List DocRecord) → List (String × List DocRecord)
  | [], bd => bd
  | l :: ls, bd =>
    if l.url ∉ existing then
      let doc := extract_document_info_comp env l
      let bd1 := bdEnsure bd doc.branch
      let bd2 := if (bdGet bd1 doc.branch).length < target then bdAppend bd1 doc.branch doc
                 else bd1
      processCompLinks env target existing ls bd2
    else
      processCompLinks env target existing ls bd

/-- `run_comprehensive_scraping` (lines 380-456) from the point where all
PDF links have been gathered: seeds `existing_urls` from storage, fills
`branch_documents`, and returns `all_new_documents` (the concatenation of
the buckets in dict insertion order). -/
def run_comprehensive_scraping (env : ScrapeEnv) (allLinks : List PageLink)
    (storage : List StoredDoc) (target : Nat) : List DocRecord :=
  let existing := get_existing_pdf_urls storage
  let bd := processCompLinks env target existing allLinks []
  (bd.map (fun p => p.2)).flatten

/-! ## Storage: `insert_documents` and the per-record fallback script -/

/-- A row as prepared for insertion by `insert_correct_schema.py`
(lines 46-53): the schema-mapped subset of the record. -/
structure InsDoc where
  gr_no : String
  date : String
  subject_en : String
  subject_gu : String
  branch : String
  pdf_url : String
deriving Repr, DecidableEq

/-- `DatabaseManager.insert_documents` (`src/core/database.py` lines 29-45):
batches of `batchSize` are inserted in order inside one `try`; the first
failing batch raises, the exception is caught, and the function returns
`False` — records of the failing batch and of every later batch are NOT
inserted (there is no per-record fallback).  The model returns the success
flag together with the list of records actually inserted; `insertFails`
models the storage client raising on a given batch.  The fuel argument only
makes the batch recursion structural; `insert_documents` below supplies
`docs.length`, which always suffices since every step consumes at least one
record. -/
def insertBatchesDb (insertFails : List DocRecord → Bool) (batchSize : Nat) :
    Nat → List DocRecord → Bool × List DocRecord
  | 0, _ => (true, [])
  | _, [] => (true, [])
  | fuel + 1, d :: ds =>
    let batch := d :: ds.take (batchSize - 1)
    if insertFails batch then (false, [])
    else
      let res := insertBatchesDb insertFails batchSize fuel (ds.drop (batchSize - 1))
      (res.1, batch ++ res.2)

/-- `DatabaseManager.insert_documents` with `demo_mode` explicit
(`Config.BATCH_SIZE` is 25 in the source; the batch size is a parameter
here). -/
def insert_documents (insertFails : List DocRecord → Bool) (demo : Bool)
    (batchSize : Nat) (docs : List DocRecord) : Bool × List DocRecord :=
  if demo then (false, [])
  else insertBatchesDb insertFails batchSize docs.length docs

/-- The batch-insert loop of `insert_correct_schema.insert_branch_documents`
(lines 65-95): a failing batch is retried record by record, each individual
failure logged and skipped, so the other records of the batch are still
inserted.  Returns `(success_count, inserted rows)`. -/
def insertBatchesFallback (batchFails : List InsDoc → Bool)
    (singleFails : InsDoc → Bool) (batchSize : Nat) :
    Nat → List InsDoc → Nat × List InsDoc
  | 0, _ => (0, [])
  | _, [] => (0, [])
  | fuel + 1, d :: ds =>
    let batch := d :: ds.take (batchSize - 1)
    let res := insertBatchesFallback batchFails singleFails batchSize fuel
      (ds.drop (batchSize - 1))
    if batchFails batch then
      let inds := batch.filter (fun x => ! singleFails x)
      (inds.length + res.1, inds ++ res.2)
    else
      (batch.length + res.1, batch ++ res.2)

/-- Entry point of the fallback insertion loop (`batch_size = 20` in the
script; a parameter here). -/
def insert_branch_documents (batchFails : List InsDoc → Bool)
    (singleFails : InsDoc → Bool) (batchSize : Nat) (docs : List InsDoc) :
    Nat × List InsDoc :=
  insertBatchesFallback batchFails singleFails batchSize docs.length docs

/-! ## A verification-free mirror of the comprehensive dedup/quota loop

`processCompUrls` runs the same acceptance algorithm as `processCompLinks`
but records only the accepted `pdf_url` per branch bucket.  It mentions no
`ScrapeEnv`, so proving that `processCompLinks` projects onto it (for every
environment) shows that verification outcomes never influence which links
are accepted. -/

/-- Projection of a `branch_documents` dict to its accepted URLs. -/
def bdUrls (bd : List (String × List DocRecord)) : List (String × List String) :=
  bd.map (fun p => (p.1, p.2.map (fun d => d.pdf_url)))

/-- Bucket lookup on the projected dict. -/
def bduGet (bd : List (String × List String)) (b : String) : List String :=
  match bd.find? (fun p => p.1 = b) with
  | some p => p.2
  | none => []

/-- Key insertion on the projected dict. -/
def bduEnsure (bd : List (String × List String)) (b : String) :
    List (String × List String) :=
  if (bd.find? (fun p => p.1 = b)).isSome then bd else bd ++ [(b, [])]

/-- Bucket append on the projected dict. -/
def bduAppend : List (String × List String) → String → String →
    List (String × List String)
  | [], b, u => [(b, [u])]
  | (k, us) :: rest, b, u =>
    if k = b then (k, us ++ [u]) :: rest else (k, us) :: bduAppend rest b u

/-- The acceptance algorithm of `run_comprehensive_scraping` on URLs alone:
identical control flow to `processCompLinks`, with the record replaced by
its URL and the branch computed by the (environment-free) classifier. -/
def processCompUrls (target : Nat) (existing : List String) :
    List PageLink → List (String × List String) → List (String × List String)
  | [], bd => bd
  | l :: ls, bd =>
    if l.url ∉ existing then
      let branch := classify_document_branch l.text l.context l.url l.page_source
      let bd1 := bduEnsure bd branch
      let bd2 := if (bduGet bd1 branch).length < target then bduAppend bd1 branch l.url
                 else bd1
      processCompUrls target existing ls bd2
    else
      processCompUrls target existing ls bd

/-! ## Concrete fixtures for witnesses and counterexamples -/

/-- A 200 response serving a PDF directly. -/
def okPdfResp (u : String) : HttpResponse :=
  { statusCode := 200, contentType := some "application/pdf",
    contentLength := some "2048", url := u }

/-- A 404 response. -/
def notFoundResp (u : String) : HttpResponse :=
  { statusCode := 404, contentType := some "text/html",
    contentLength := none, url := u }

/-- An environment in which every URL verifies as a directly accessible
PDF. -/
def envAllPdf : ScrapeEnv :=
  { http := fun u => { headResult := .ok (okPdfResp u), getResult := .ok (okPdfResp u) },
    pyHash := fun _ => 0,
    nowDate := "2025-01-01",
    nowIso := "2025-01-01T00:00:00" }

/-- An environment in which every URL fails verification (404 on both
probes). -/
def envAllInvalid : ScrapeEnv :=
  { http := fun u => { headResult := .ok (notFoundResp u), getResult := .ok (notFoundResp u) },
    pyHash := fun _ => 0,
    nowDate := "2025-01-01",
    nowIso := "2025-01-01T00:00:00" }

/-- An environment in which HEAD serves HTML with no declared length and GET
resolves to an HTML landing page: `verify_pdf_url` marks the URL invalid and
records the landing page as fallback. -/
def envLanding : ScrapeEnv :=
  { http := fun u =>
      { headResult := .ok { statusCode := 200, contentType := some "text/html",
                            contentLength := none, url := u },
        getResult := .ok { statusCode := 200, contentType := some "text/html",
                           contentLength := none, url := "https://x/landing.html" } },
    pyHash := fun _ => 0,
    nowDate := "2025-01-01",
    nowIso := "2025-01-01T00:00:00" }

/-- The n-th raw link of the six-link single-branch site used against C1. -/
def rawLinkN (n : Nat) : RawLink :=
  { url := "https://x/doc" ++ toString n ++ ".pdf", text := "", context := "",
    page_url := "https://x/gr.html", navigation_route := "Home Page → GR Page" }

/-- A source site with one branch page yielding six distinct PDF links. -/
def siteSix : String → String → List RawLink :=
  fun _ _ => [rawLinkN 1, rawLinkN 2, rawLinkN 3, rawLinkN 4, rawLinkN 5, rawLinkN 6]

/-- A single-branch run configuration. -/
def branchesOne : List (String × String) := [("3", "K-(Budget)")]

/-- First run of the C1 scenario: empty storage, six fresh links,
`target_per_branch = 5`. -/
def c1run1 : List DocRecord :=
  run_branch_scraping envAllPdf siteSix [] branchesOne 5

/-- Storage after persisting the first run's accepted records. -/
def c1storage2 : List StoredDoc :=
  c1run1.map (fun d => { pdf_url := d.pdf_url, branch := d.branch })

/-- Second run of the C1 scenario against the updated storage and the
unchanged site. -/
def c1run2 : List DocRecord :=
  run_branch_scraping envAllPdf siteSix c1storage2 branchesOne 5

/-- The n-th page link of the twelve-link single-branch page used for C2:
all texts carry the keyword "budget", so every link classifies to
"K-(Budget)". -/
def pageLinkN (n : Nat) : PageLink :=
  { url := "https://x/item" ++ toString n ++ ".pdf", text := "budget",
    context := "", page_source := "PageX", page_url := "https://x/p.html",
    navigation_route := "Home Page → PageX" }

/-- Twelve links, pairwise-distinct URLs, none known to storage. -/
def links12 : List PageLink :=
  [pageLinkN 1, pageLinkN 2, pageLinkN 3, pageLinkN 4, pageLinkN 5, pageLinkN 6,
   pageLinkN 7, pageLinkN 8, pageLinkN 9, pageLinkN 10, pageLinkN 11, pageLinkN 12]

/-- A link fed to the real-scraper processing loop in the C8 scenario. -/
def realLink1 : RealLink :=
  { url := "https://x/doc1.pdf", text := "", context := "",
    page_name := "GR Page", page_url := "https://x/gr.html" }

/-- A well-formed record accepted by storage in the C5 scenario. -/
def docGood : DocRecord :=
  { gr_no := "GR-1-1-A", date := "2025-01-01", subject_en := "ok",
    subject_ur := some "", branch := "K-(Budget)", pdf_url := "https://x/good.pdf",
    pdf_valid := true, fallback_url := none, pdf_status := "PDF accessible directly",
    navigation_route := "Home", scraped_at := "2025-01-01T00:00:00",
    source_page := none, source_page_url := "https://x/p.html" }

/-- A malformed record which storage rejects in the C5 scenario. -/
def docBad : DocRecord :=
  { docGood with gr_no := "BAD", pdf_url := "https://x/bad.pdf" }

/-- A storage client that raises exactly on batches containing the
malformed record. -/
def failsOnBad : List DocRecord → Bool :=
  fun batch => decide (docBad ∈ batch)

/-- The schema-mapped row of a record, as prepared by
`insert_correct_schema.py` lines 46-53. -/
def toInsDoc (d : DocRecord) : InsDoc :=
  { gr_no := d.gr_no, date := d.date, subject_en := d.subject_en,
    subject_gu := d.subject_ur.getD "", branch := d.branch, pdf_url := d.pdf_url }

/-- The batch-level failure oracle of the C5 scenario on schema-mapped
rows. -/
def failsOnBadIns : List InsDoc → Bool :=
  fun batch => decide (toInsDoc docBad ∈ batch)

/-- The per-record failure oracle of the C5 scenario: only the malformed
record fails individually. -/
def singleFailsBadIns : InsDoc → Bool :=
  fun d => decide (d = toInsDoc docBad)

/-- Does the pattern necessarily consume at least one character on every
successful match?  True as soon as some element is a literal, a mandatory
class or a plus-quantified class (ignoring leading optional/star
elements). -/
def hasConsumer : List Elem → Bool
  | [] => false
  | .lit _ _ :: _ => true
  | .cls _ .one :: _ => true
  | .cls _ .plus :: _ => true
  | .cls _ .opt :: es => hasConsumer es
  | .cls _ .star :: es => hasConsumer es

/-- Number of accepted records carrying branch `b` in a run result. -/
def countBranch (out : List DocRecord) (b : String) : Nat :=
  (out.filter (fun d => d.branch = b)).length

/-!
# Theorems
-/

set_option maxRecDepth 1000000

/-- A non-empty string has positive length. -/
theorem length_pos_of_ne (s : String) (h : s ≠ "") : 0 < s.length := by
  rcases Nat.eq_zero_or_pos s.length with h0 | hpos
  · exact absurd (String.ext (List.length_eq_zero.mp h0)) h
  · exact hpos

/-- A string of positive length is non-empty. -/
theorem ne_empty_of_length_pos (s : String) (h : 0 < s.length) : s ≠ "" := by
  intro he
  rw [he] at h
  exact Nat.lt_irrefl 0 h

/-- Any successful match of a pattern with a mandatory consumer is
non-empty. -/
theorem matchSeq_ne_nil :
    ∀ (f : Nat) (es : List Elem) (cs m : List Char),
      matchSeq f es cs = some m → hasConsumer es = true → m ≠ [] := by
  intro f
  induction f with
  | zero => intro es cs m h _; simp [matchSeq] at h
  | succ f ih =>
    intro es cs m h hc
    match es, cs with
    | [], _ => simp [hasConsumer] at hc
    | .lit a ci :: es, [] => simp [matchSeq] at h
    | .lit a ci :: es, c :: cs' =>
      simp only [matchSeq] at h
      split at h
      · rcases Option.map_eq_some'.mp h with ⟨m', _, rfl⟩
        exact List.cons_ne_nil c m'
      · exact absurd h (by simp)
    | .cls p .one :: es, [] => simp [matchSeq] at h
    | .cls p .one :: es, c :: cs' =>
      simp only [matchSeq] at h
      split at h
      · rcases Option.map_eq_some'.mp h with ⟨m', _, rfl⟩
        exact List.cons_ne_nil c m'
      · exact absurd h (by simp)
    | .cls p .plus :: es, [] => simp [matchSeq] at h
    | .cls p .plus :: es, c :: cs' =>
      simp only [matchSeq] at h
      split at h
      · rcases Option.map_eq_some'.mp h with ⟨m', _, rfl⟩
        exact List.cons_ne_nil c m'
      · exact absurd h (by simp)
    | .cls p .opt :: es, [] =>
      simp only [matchSeq] at h
      exact ih es [] m h (by simpa [hasConsumer] using hc)
    | .cls p .opt :: es, c :: cs' =>
      simp only [matchSeq] at h
      have hc' : hasConsumer es = true := by simpa [hasConsumer] using hc
      split at h
      · split at h
        · cases h
          exact List.cons_ne_nil _ _
        · exact ih es (c :: cs') m h hc'
      · exact ih es (c :: cs') m h hc'
    | .cls p .star :: es, [] =>
      simp only [matchSeq] at h
      exact ih es [] m h (by simpa [hasConsumer] using hc)
    | .cls p .star :: es, c :: cs' =>
      simp only [matchSeq] at h
      have hc' : hasConsumer es = true := by simpa [hasConsumer] using hc
      split at h
      · split at h
        · cases h
          exact List.cons_ne_nil _ _
        · exact ih es (c :: cs') m h hc'
      · exact ih es (c :: cs') m h hc'

/-- Leftmost search inherits non-emptiness of matches. -/
theorem searchFrom_ne_nil :
    ∀ (cs : List Char) (pat : List Elem) (m : List Char),
      searchFrom pat cs = some m → hasConsumer pat = true → m ≠ [] := by
  intro cs
  induction cs with
  | nil =>
    intro pat m h hc
    simp only [searchFrom, matchHere] at h
    exact matchSeq_ne_nil _ _ _ _ h hc
  | cons c cs ih =>
    intro pat m h hc
    simp only [searchFrom, matchHere] at h
    split at h
    · cases h
      exact matchSeq_ne_nil _ _ _ _ (by assumption) hc
    · exact ih pat m h hc

/-- `re.search` with a consuming pattern never returns the empty string. -/
theorem reSearch_ne_empty (pat : List Elem) (s m : String)
    (h : reSearch pat s = some m) (hc : hasConsumer pat = true) : m ≠ "" := by
  rcases Option.map_eq_some'.mp h with ⟨cs, hcs, rfl⟩
  intro he
  have : cs = [] := congrArg String.data he
  exact searchFrom_ne_nil _ _ _ hcs hc this

/-- A first-match cascade over consuming patterns never yields the empty
string. -/
theorem firstMatch_ne_empty :
    ∀ (pats : List (List Elem)) (s m : String),
      firstMatch pats s = some m → pats.all hasConsumer = true → m ≠ "" := by
  intro pats
  induction pats with
  | nil => intro s m h _; simp [firstMatch] at h
  | cons p ps ih =>
    intro s m h hall
    rcases List.all_eq_true.mp hall p (List.mem_cons_self p ps) with hp
    simp only [firstMatch] at h
    split at h
    · cases h
      exact reSearch_ne_empty _ _ _ (by assumption) hp
    · exact ih s m h (by
        apply List.all_eq_true.mpr
        intro q hq
        exact List.all_eq_true.mp hall q (List.mem_cons_of_mem p hq))

/-- Every `gr_patterns` entry of the branch/comprehensive scrapers has a
mandatory consumer. -/
theorem grPatternsBranch_consume : grPatternsBranch.all hasConsumer = true := by decide

/-- String concatenation adds lengths. -/
theorem strLen_append (a b : String) : (a ++ b).length = a.length + b.length := by
  cases a with
  | mk as =>
    cases b with
    | mk bs => simp [String.length, String.append]

/-- A string whose filename part passes the separator test is non-empty. -/
theorem sep_target_pos (up : String) (hsep : (subIn "_" up || subIn "-" up) = true) :
    0 < up.length := by
  rcases Nat.eq_zero_or_pos up.length with h0 | hpos
  · exfalso
    have he : up = "" := String.ext (List.length_eq_zero.mp h0)
    rw [he] at hsep
    exact absurd hsep (by decide)
  · exact hpos

/-- The hash-fallback identifier is non-empty. -/
theorem hash_fallback_pos (tag mid rest : String) (hm : 0 < mid.length) :
    0 < (tag ++ mid ++ rest).length := by
  rw [strLen_append, strLen_append]
  omega

/-- The GR-number extractor of `scrape_by_branch` always yields a non-empty
identifier. -/
theorem extractGrNoBranch_pos (pyHash : String → Int) (t c u : String) :
    0 < (extractGrNoBranch pyHash t c u).length := by
  simp only [extractGrNoBranch]
  split
  · split
    · next hsep => exact sep_target_pos _ hsep
    · exact hash_fallback_pos _ _ _ (by decide)
  · next hg => exact length_pos_of_ne _ hg

/-- The GR-number extractor of `scrape_comprehensive` always yields a
non-empty identifier (possibly the sentinel "Unknown"). -/
theorem extractGrNoComp_pos (t c u : String) :
    0 < (extractGrNoComp t c u).length := by
  simp only [extractGrNoComp]
  split
  · split
    · next hsep => exact sep_target_pos _ hsep
    · decide
  · next hg =>
    cases hm : firstMatch grPatternsBranch (t ++ " " ++ c) with
    | none =>
      exfalso
      rw [hm] at hg
      exact hg rfl
    | some m =>
      have hne : m ≠ "" := firstMatch_ne_empty _ _ _ hm grPatternsBranch_consume
      simpa using length_pos_of_ne _ hne

/-- C3: for every record produced by the metadata extractors of
`scrape_by_branch.extract_document_info` and
`scrape_comprehensive.extract_document_info`, the `gr_no` field is a
non-empty string — whatever the link text, context and URL, whether a regex
pattern matched, the URL-filename fallback applied, or neither. -/
theorem C3_gr_no_nonempty :
    (∀ (env : ScrapeEnv) (l : BranchLink),
       0 < (extract_document_info_branch env l).gr_no.length) ∧
    (∀ (env : ScrapeEnv) (l : PageLink),
       0 < (extract_document_info_comp env l).gr_no.length) := by
  constructor
  · intro env l
    exact extractGrNoBranch_pos env.pyHash l.text l.context l.url
  · intro env l
    exact extractGrNoComp_pos l.text l.context l.url

/-- C9 counterexample: the synthetic identifier is NOT stable across
processes.  The extractor's output flows through Python's process-seeded
`hash`; under two hash functions (two processes) the same URL — with no
regex match and no filename separator — yields two different `gr_no`
values. -/
theorem C9_counterexample :
    extractGrNoBranch (fun _ => 0) "" "" "https://x/abc.pdf" = "DOC_0" ∧
    extractGrNoBranch (fun _ => 1) "" "" "https://x/abc.pdf" = "DOC_1" := by
  exact ⟨by decide, by decide⟩

/-- C9 (amended): in `scrape_by_branch.extract_document_info`, whenever the
GR regex patterns find no match and the URL's filename contains no
separator, the generated `gr_no` equals the page-type tag joined by "_" to
`hash(url) % 100000` — a deterministic function of the URL and the
process's hash function, hence stable within one process but not across
processes. -/
theorem C9_hash_fallback (pyHash : String → Int) (t c u : String)
    (hmatch : firstMatch grPatternsBranch (t ++ " " ++ c) = none)
    (hund : subIn "_" (stripPdfExt (splitLast u)) = false)
    (hdash : subIn "-" (stripPdfExt (splitLast u)) = false) :
    extractGrNoBranch pyHash t c u =
      pageTypeOf u ++ "_" ++ toString (pyHash u % 100000) := by
  simp [extractGrNoBranch, hmatch, hund, hdash]

/-- C9 witness: the amended hash-fallback equation instantiated at a
concrete URL and hash function. -/
theorem C9_hash_fallback_witness :
    extractGrNoBranch (fun _ => 12345) "" "" "https://x/abc.pdf" = "DOC_12345" := by
  have h := C9_hash_fallback (fun _ => 12345) "" "" "https://x/abc.pdf"
    (by decide) (by decide) (by decide)
  rw [h]
  decide

/-- C4 counterexample: a URL serving HTTP 200 with `Content-Type: text/html`
on HEAD and a positive declared `Content-Length` is marked VALID by the HEAD
shortcut (`'pdf' in content_type or int(content_length) > 0`), contradicting
the claim that every 200/text-html URL yields `valid=false` with a fallback
URL; the GET probe is never consulted. -/
theorem C4_counterexample :
    verify_pdf_url
      { headResult := .ok { statusCode := 200, contentType := some "text/html",
                            contentLength := some "5000", url := "https://x/a.pdf" },
        getResult := .error .timeout } "https://x/a.pdf" =
      { valid := true, url := "https://x/a.pdf", statusCode := some 200,
        fallbackUrl := none, message := "PDF accessible directly",
        errMsg := none } := by
  decide

/-- C4 (amended): (1) a HEAD response of 200 whose `Content-Type` contains
"pdf" yields `valid=true, fallback_url=none`; (2) a HEAD response of 200
serving a non-PDF content type whose declared content length parses to a
non-positive value falls through to GET, and a 200 non-PDF GET yields
`valid=false` with `fallback_url` the final resolved URL of the GET
request. -/
theorem C4_verifier_roundtrip :
    (∀ (env : HttpEnv) (url : String) (r : HttpResponse),
        env.headResult = .ok r → r.statusCode = 200 →
        subIn "pdf" (pyLower (r.contentType.getD "")) = true →
        verify_pdf_url env url = validDirect url 200) ∧
    (∀ (env : HttpEnv) (url : String) (r g : HttpResponse) (n : Int),
        env.headResult = .ok r → r.statusCode = 200 →
        subIn "pdf" (pyLower (r.contentType.getD "")) = false →
        parseContentLength r.contentLength = .ok n → n ≤ 0 →
        env.getResult = .ok g → g.statusCode = 200 →
        subIn "pdf" (pyLower (g.contentType.getD "")) = false →
        verify_pdf_url env url =
          { valid := false, url := url, statusCode := some 200,
            fallbackUrl := some g.url,
            message := "PDF not directly accessible - use fallback page link",
            errMsg := none }) := by
  constructor
  · intro env url r hh hst hct
    unfold verify_pdf_url verifyBody
    rw [hh]
    simp only [liftNet, hst, hct]
    simp
  · intro env url r g n hh hst hct hcl hn hg hgst hgct
    unfold verify_pdf_url verifyBody verifyGetPhase
    rw [hh]
    simp only [liftNet, hst, hct, hcl]
    have hngt : ¬ n > 0 := by omega
    rw [hg]
    simp only [liftNet, hgst, hgct]
    simp [hngt]

/-- C4 witness: both halves of the round-trip applied to concrete
responses — a direct PDF HEAD, and an HTML HEAD without declared length
followed by an HTML GET resolving to a landing page. -/
theorem C4_verifier_roundtrip_witness :
    verify_pdf_url
      { headResult := .ok (okPdfResp "https://x/a.pdf"),
        getResult := .error .timeout } "https://x/a.pdf" =
      validDirect "https://x/a.pdf" 200 ∧
    verify_pdf_url (envLanding.http "https://x/a.pdf") "https://x/a.pdf" =
      { valid := false, url := "https://x/a.pdf", statusCode := some 200,
        fallbackUrl := some "https://x/landing.html",
        message := "PDF not directly accessible - use fallback page link",
        errMsg := none } := by
  constructor
  · exact C4_verifier_roundtrip.1 _ "https://x/a.pdf" (okPdfResp "https://x/a.pdf")
      rfl rfl (by decide)
  · exact C4_verifier_roundtrip.2 _ "https://x/a.pdf"
      { statusCode := 200, contentType := some "text/html",
        contentLength := none, url := "https://x/a.pdf" }
      { statusCode := 200, contentType := some "text/html",
        contentLength := none, url := "https://x/landing.html" }
      0 rfl rfl (by decide) rfl (by decide) rfl rfl (by decide)

/-- C10: `verify_pdf_url` is total at its interface — every exception raised
inside the body is caught and converted into an invalid result.  First, any
exception from the HEAD request yields `valid=false`.  Second, a HEAD
response of HTTP 200 whose `Content-Type` lacks "pdf" and whose
`Content-Length` header is present but unparseable makes `int()` raise, the
generic handler returns the `valid=false` error dictionary, and the result
is the same whatever the GET request would have produced — the GET probe is
skipped entirely. -/
theorem C10_verify_total :
    (∀ (env : HttpEnv) (url : String) (e : NetExc),
        env.headResult = .error e → (verify_pdf_url env url).valid = false) ∧
    (∀ (r : HttpResponse) (url cl : String) (g : Except NetExc HttpResponse),
        r.statusCode = 200 →
        subIn "pdf" (pyLower (r.contentType.getD "")) = false →
        r.contentLength = some cl → pyInt? cl = none →
        verify_pdf_url { headResult := .ok r, getResult := g } url =
          { valid := false, url := url, statusCode := none, fallbackUrl := none,
            message := "Error: " ++ ("invalid literal for int() with base 10: " ++ cl),
            errMsg := some ("invalid literal for int() with base 10: " ++ cl) }) := by
  constructor
  · intro env url e hh
    unfold verify_pdf_url verifyBody
    rw [hh]
    cases e <;> simp [liftNet]
  · intro r url cl g hst hct hcl hint
    unfold verify_pdf_url verifyBody
    simp only [liftNet, hst, hct, hcl, parseContentLength, hint]
    simp

/-- C10 witness: the totality statement applied at concrete inputs — a HEAD
timeout, and a HEAD 200 with `Content-Length: "abc"` against two different
GET outcomes, producing the identical error result. -/
theorem C10_verify_total_witness :
    (verify_pdf_url { headResult := .error .timeout, getResult := .error .timeout }
      "https://x/a.pdf").valid = false ∧
    verify_pdf_url
      { headResult := .ok { statusCode := 200, contentType := some "text/html",
                            contentLength := some "abc", url := "https://x/a.pdf" },
        getResult := .error .timeout } "https://x/a.pdf" =
    verify_pdf_url
      { headResult := .ok { statusCode := 200, contentType := some "text/html",
                            contentLength := some "abc", url := "https://x/a.pdf" },
        getResult := .ok (okPdfResp "https://x/a.pdf") } "https://x/a.pdf" := by
  constructor
  · exact C10_verify_total.1 _ "https://x/a.pdf" .timeout rfl
  · rw [C10_verify_total.2 _ "https://x/a.pdf" "abc" (.error .timeout)
          rfl (by decide) rfl (by decide),
        C10_verify_total.2 _ "https://x/a.pdf" "abc" (.ok (okPdfResp "https://x/a.pdf"))
          rfl (by decide) rfl (by decide)]

/-- C7 counterexample: a text containing both a budget keyword and a
pension keyword is NOT always assigned to the first-listed of those two
branches — here the text also contains the keyword "pay" of the
earlier-listed branch "M-(Pay of Government Employee)", which wins, so the
result is neither the budget branch nor the pension branch. -/
theorem C7_counterexample :
    kwHit (pyLower ("pay budget pension" ++ " " ++ "" ++ " " ++ "")) kwBudgetComp = true ∧
    kwHit (pyLower ("pay budget pension" ++ " " ++ "" ++ " " ++ "")) kwPensionComp = true ∧
    classify_document_branch "pay budget pension" "" "" "" =
      "M-(Pay of Government Employee)" := by
  exact ⟨by decide, by decide, by decide⟩

/-- C7 (amended): the classifier always returns a member of the fixed
closed branch enumeration; and a text matching both the budget and the
pension keyword lists is assigned to "K-(Budget)" — the first-listed of the
two in the fixed mapping order — provided no branch listed before it
("M-(Pay of Government Employee)", "PayCell-(Pay Commission)") also has a
keyword match. -/
theorem C7_classifier :
    (∀ (t c u p : String), classify_document_branch t c u p ∈ branchEnumComp) ∧
    (∀ (t c u p : String),
        kwHit (pyLower (t ++ " " ++ c ++ " " ++ p)) kwPayComp = false →
        kwHit (pyLower (t ++ " " ++ c ++ " " ++ p)) kwPayCellComp = false →
        kwHit (pyLower (t ++ " " ++ c ++ " " ++ p)) kwBudgetComp = true →
        kwHit (pyLower (t ++ " " ++ c ++ " " ++ p)) kwPensionComp = true →
        classify_document_branch t c u p = "K-(Budget)") := by
  constructor
  · intro t c u p
    unfold classify_document_branch
    cases hf : branchKeywordsComp.find?
        (fun q => kwHit (pyLower (t ++ " " ++ c ++ " " ++ p)) q.2) with
    | some q =>
      have hq : q ∈ branchKeywordsComp := List.mem_of_find?_eq_some hf
      simp only [hf]
      exact List.mem_map_of_mem (fun x => x.1) hq
    | none =>
      simp only [hf]
      split_ifs <;> decide
  · intro t c u p hM hPC hK _
    unfold classify_document_branch branchKeywordsComp
    simp [List.find?, hM, hPC, hK]

/-- C7 witness: the amended tie-break applied to a text carrying exactly a
budget keyword and a pension keyword. -/
theorem C7_classifier_witness :
    classify_document_branch "budget pension" "" "" "" = "K-(Budget)" := by
  exact C7_classifier.2 "budget pension" "" "" ""
    (by decide) (by decide) (by decide) (by decide)

/-- `bdGet` on the empty dict. -/
theorem bdGet_nil (b : String) : bdGet [] b = [] := rfl

/-- `bdGet` on a cons: the head bucket when its key matches, the tail
lookup otherwise. -/
theorem bdGet_cons (k : String) (ds : List DocRecord)
    (rest : List (String × List DocRecord)) (b : String) :
    bdGet ((k, ds) :: rest) b = if k = b then ds else bdGet rest b := by
  by_cases hk : k = b
  · simp [bdGet, List.find?, hk]
  · simp [bdGet, List.find?, hk]

/-- A key absent from the dict has an empty bucket. -/
theorem bdGet_eq_nil_of_not_mem (b : String) :
    ∀ (bd : List (String × List DocRecord)),
      b ∉ bd.map (fun p => p.1) → bdGet bd b = [] := by
  intro bd
  induction bd with
  | nil => intro _; rfl
  | cons q rest ih =>
    intro hb
    obtain ⟨k, ds⟩ := q
    rw [bdGet_cons]
    have hk : ¬ k = b := by
      intro hkb
      exact hb (by simp [hkb])
    rw [if_neg hk]
    exact ih (fun hmem => hb (by simp; right; simpa using hmem))

/-- Keys of `bdAppend`: unchanged when the branch key exists, extended by
it otherwise. -/
theorem bdAppend_keys (b : String) (d : DocRecord) :
    ∀ (bd : List (String × List DocRecord)),
      (bdAppend bd b d).map (fun p => p.1) =
        if b ∈ bd.map (fun p => p.1) then bd.map (fun p => p.1)
        else bd.map (fun p => p.1) ++ [b] := by
  intro bd
  induction bd with
  | nil => simp [bdAppend]
  | cons q rest ih =>
    obtain ⟨k, ds⟩ := q
    by_cases hk : k = b
    · subst hk
      simp [bdAppend]
    · simp only [bdAppend, if_neg hk, List.map_cons, ih]
      by_cases hb : b ∈ rest.map (fun p => p.1)
      · simp [hb, hk, Ne.symm hk]
      · simp [hb, hk, Ne.symm hk]

/-- `bdGet` after `bdAppend` at the same key: the bucket grows by the
record. -/
theorem bdGet_append_self (b : String) (d : DocRecord) :
    ∀ (bd : List (String × List DocRecord)),
      bdGet (bdAppend bd b d) b = bdGet bd b ++ [d] := by
  intro bd
  induction bd with
  | nil => simp [bdAppend, bdGet_cons, bdGet_nil]
  | cons q rest ih =>
    obtain ⟨k, ds⟩ := q
    by_cases hk : k = b
    · subst hk
      simp [bdAppend, bdGet_cons]
    · simp only [bdAppend, if_neg hk]
      rw [bdGet_cons, bdGet_cons, if_neg hk, if_neg hk]
      exact ih

/-- `bdGet` after `bdAppend` at another key is unchanged. -/
theorem bdGet_append_other (b b' : String) (d : DocRecord) (hne : ¬ b' = b) :
    ∀ (bd : List (String × List DocRecord)),
      bdGet (bdAppend bd b d) b' = bdGet bd b' := by
  intro bd
  induction bd with
  | nil =>
    simp only [bdAppend, bdGet_cons, bdGet_nil]
    rw [if_neg (fun h => hne h.symm)]
  | cons q rest ih =>
    obtain ⟨k, ds⟩ := q
    by_cases hk : k = b
    · subst hk
      have happ : bdAppend ((k, ds) :: rest) k d = (k, ds ++ [d]) :: rest := by
        simp [bdAppend]
      rw [happ, bdGet_cons, bdGet_cons, if_neg (fun h => hne h.symm),
        if_neg (fun h => hne h.symm)]
    · simp only [bdAppend, if_neg hk]
      rw [bdGet_cons, bdGet_cons]
      by_cases hkb : k = b'
      · simp [hkb]
      · rw [if_neg hkb, if_neg hkb]
        exact ih

/-- Membership after `bdAppend`: every bucket is an old bucket, the old
bucket of `b` extended by the record, or the fresh bucket `(b, [d])`. -/
theorem bdAppend_mem (b : String) (d : DocRecord) :
    ∀ (bd : List (String × List DocRecord)) (q : String × List DocRecord),
      q ∈ bdAppend bd b d →
      q ∈ bd ∨ q = (b, bdGet bd b ++ [d]) := by
  intro bd
  induction bd with
  | nil =>
    intro q hq
    rcases List.mem_singleton.mp hq with rfl
    right
    simp [bdGet_nil]
  | cons q0 rest ih =>
    intro q hq
    obtain ⟨k, ds⟩ := q0
    by_cases hk : k = b
    · subst hk
      simp only [bdAppend, if_pos rfl] at hq
      rcases List.mem_cons.mp hq with rfl | hq
      · right
        rw [bdGet_cons, if_pos rfl]
      · left
        exact List.mem_cons_of_mem _ hq
    · simp only [bdAppend, if_neg hk] at hq
      rcases List.mem_cons.mp hq with rfl | hq
      · left
        exact List.mem_cons_self _ _
      · rcases ih q hq with hq' | hq'
        · left
          exact List.mem_cons_of_mem _ hq'
        · right
          rw [bdGet_cons, if_neg hk]
          exact hq'

/-- Membership after `bdEnsure`: every bucket is an old one or the fresh
empty bucket. -/
theorem bdEnsure_mem (b : String) (bd : List (String × List DocRecord))
    (q : String × List DocRecord) (hq : q ∈ bdEnsure bd b) :
    q ∈ bd ∨ q = (b, []) := by
  unfold bdEnsure at hq
  split at hq
  · exact Or.inl hq
  · rcases List.mem_append.mp hq with hq | hq
    · exact Or.inl hq
    · exact Or.inr (List.mem_singleton.mp hq)

/-- Keys of `bdEnsure`: unchanged when the key exists, extended by it
otherwise — and the key list stays duplicate-free. -/
theorem bdEnsure_nodup (b : String) (bd : List (String × List DocRecord))
    (h : (bd.map (fun p => p.1)).Nodup) :
    ((bdEnsure bd b).map (fun p => p.1)).Nodup := by
  unfold bdEnsure
  split
  · exact h
  · next hfind =>
    have hnone : bd.find? (fun p => p.1 = b) = none :=
      Option.not_isSome_iff_eq_none.mp hfind
    have hkeys : b ∉ bd.map (fun p => p.1) := by
      intro hmem
      rcases List.mem_map.mp hmem with ⟨q, hq, hq1⟩
      have := List.find?_eq_none.mp hnone q hq
      simp [hq1] at this
    rw [List.map_append, List.nodup_append]
    refine ⟨h, by simp, ?_⟩
    intro a ha
    simp only [List.map_cons, List.map_nil, List.mem_singleton]
    intro hab
    exact hkeys (hab ▸ ha)

/-- `bdGet` after `bdEnsure` is unchanged at every key. -/
theorem bdGet_ensure (b b' : String) (bd : List (String × List DocRecord)) :
    bdGet (bdEnsure bd b) b' = bdGet bd b' := by
  unfold bdEnsure
  split
  · rfl
  · next hfind =>
    have hnone : bd.find? (fun p => p.1 = b) = none :=
      Option.not_isSome_iff_eq_none.mp hfind
    induction bd with
    | nil =>
      simp only [List.nil_append, bdGet_cons, bdGet_nil]
      by_cases hb : b = b'
      · subst hb
        simp [bdGet_nil]
      · rw [if_neg hb]
    | cons q rest ih =>
      obtain ⟨k, ds⟩ := q
      simp only [List.find?] at hnone
      have hk : ¬ (k = b) := by
        intro hkb
        simp [hkb] at hnone
      have hnone' : rest.find? (fun p => p.1 = b) = none := by
        simpa [hk] using hnone
      simp only [List.cons_append]
      rw [bdGet_cons, bdGet_cons]
      by_cases hkb : k = b'
      · simp [hkb]
      · rw [if_neg hkb, if_neg hkb]
        exact ih (by simp [Option.isSome, hnone']) hnone'

/-- Keys of `bdAppend` stay duplicate-free. -/
theorem bdAppend_nodup (b : String) (d : DocRecord)
    (bd : List (String × List DocRecord))
    (h : (bd.map (fun p => p.1)).Nodup) :
    ((bdAppend bd b d).map (fun p => p.1)).Nodup := by
  rw [bdAppend_keys]
  split
  · exact h
  · next hmem =>
    rw [List.nodup_append]
    refine ⟨h, by simp, ?_⟩
    intro a ha
    simp only [List.map_cons, List.map_nil, List.mem_singleton]
    intro hab
    exact hmem (hab ▸ ha)

/-- The dict invariant through the comprehensive dedup/quota loop: distinct
keys, quota respected by every bucket, and every record housed under its
own branch. -/
theorem processCompLinks_wf (env : ScrapeEnv) (target : Nat) (existing : List String) :
    ∀ (links : List PageLink) (bd : List (String × List DocRecord)),
      (bd.map (fun p => p.1)).Nodup →
      (∀ q ∈ bd, q.2.length ≤ target ∧ ∀ d ∈ q.2, d.branch = q.1) →
      ((processCompLinks env target existing links bd).map (fun p => p.1)).Nodup ∧
      (∀ q ∈ processCompLinks env target existing links bd,
        q.2.length ≤ target ∧ ∀ d ∈ q.2, d.branch = q.1) := by
  intro links
  induction links with
  | nil =>
    intro bd h1 h2
    exact ⟨h1, h2⟩
  | cons l ls ih =>
    intro bd h1 h2
    simp only [processCompLinks]
    split
    · set doc := extract_document_info_comp env l with hdoc
      have hens2 : ∀ q ∈ bdEnsure bd doc.branch,
          q.2.length ≤ target ∧ ∀ d ∈ q.2, d.branch = q.1 := by
        intro q hq
        rcases bdEnsure_mem doc.branch bd q hq with hq' | rfl
        · exact h2 q hq'
        · exact ⟨by simp, by simp⟩
      split
      · next hlt =>
        apply ih
        · exact bdAppend_nodup _ _ _ (bdEnsure_nodup _ _ h1)
        · intro q hq
          rcases bdAppend_mem doc.branch doc _ q hq with hq' | rfl
          · exact hens2 q hq'
          · constructor
            · rw [List.length_append]
              simpa using hlt
            · intro d hd
              rcases List.mem_append.mp hd with hd | hd
              · have hget := hens2
                -- the old bucket of doc.branch, if any, satisfies the invariant
                rcases hfind : (bdEnsure bd doc.branch).find? (fun p => p.1 = doc.branch)
                  with _ | q'
                · simp only [bdGet, hfind] at hd
                  simp at hd
                · have hq' : q' ∈ bdEnsure bd doc.branch :=
                    List.mem_of_find?_eq_some hfind
                  have hq'1 : q'.1 = doc.branch := by
                    have := List.find?_some hfind
                    simpa using this
                  simp only [bdGet, hfind] at hd
                  rw [(hens2 q' hq').2 d hd, hq'1]
              · rcases List.mem_singleton.mp hd with rfl
                rfl
      · exact ih _ (bdEnsure_nodup _ _ h1) hens2
    · exact ih bd h1 h2

/-- With the invariant, the number of records of branch `b` in the
concatenated output equals the size of bucket `b`. -/
theorem countBranch_flatten (b : String) :
    ∀ (bd : List (String × List DocRecord)),
      (bd.map (fun p => p.1)).Nodup →
      (∀ q ∈ bd, ∀ d ∈ q.2, d.branch = q.1) →
      countBranch ((bd.map (fun p => p.2)).flatten) b = (bdGet bd b).length := by
  intro bd
  induction bd with
  | nil => intro _ _; simp [countBranch, bdGet_nil]
  | cons q rest ih =>
    intro h1 h2
    obtain ⟨k, ds⟩ := q
    have h1' : (rest.map (fun p => p.1)).Nodup := (List.nodup_cons.mp h1).2
    have hknotin : k ∉ rest.map (fun p => p.1) := (List.nodup_cons.mp h1).1
    have h2' : ∀ q ∈ rest, ∀ d ∈ q.2, d.branch = q.1 :=
      fun q hq => h2 q (List.mem_cons_of_mem _ hq)
    have ihr := ih h1' h2'
    simp only [List.map_cons, List.flatten_cons, countBranch, List.filter_append,
      List.length_append] at ihr ⊢
    rw [bdGet_cons]
    by_cases hk : k = b
    · subst hk
      have hfil : ds.filter (fun d => d.branch = k) = ds := by
        apply List.filter_eq_self.mpr
        intro d hd
        simp [h2 (k, ds) (List.mem_cons_self _ _) d hd]
      have hrest : bdGet rest k = [] := bdGet_eq_nil_of_not_mem k rest hknotin
      rw [if_pos rfl, hfil, ihr, hrest]
      simp
    · have hfil : ds.filter (fun d => d.branch = b) = [] := by
        apply List.filter_eq_nil_iff.mpr
        intro d hd
        simp only [decide_eq_true_eq]
        rw [h2 (k, ds) (List.mem_cons_self _ _) d hd]
        exact hk
      rw [if_neg hk, hfil, ihr]
      simp


/-- C2: per-branch quota enforcement in `run_comprehensive_scraping` — for
every run at most `target_per_branch` records are accepted per branch
(instantiated by the claim at 5); and concretely, for a source page
yielding 12 links, none known to storage, all classified to the same branch
"K-(Budget)", exactly 5 are accepted (the first five) and the remaining 7
are rejected by the quota check. -/
theorem C2_quota_enforcement :
    (∀ (env : ScrapeEnv) (allLinks : List PageLink) (storage : List StoredDoc)
        (target : Nat) (b : String),
        countBranch (run_comprehensive_scraping env allLinks storage target) b ≤ target) ∧
    (run_comprehensive_scraping envAllPdf links12 [] 5).length = 5 ∧
    (run_comprehensive_scraping envAllPdf links12 [] 5).map (fun d => d.pdf_url) =
      ["https://x/item1.pdf", "https://x/item2.pdf", "https://x/item3.pdf",
       "https://x/item4.pdf", "https://x/item5.pdf"] ∧
    countBranch (run_comprehensive_scraping envAllPdf links12 [] 5) "K-(Budget)" = 5 := by
  refine ⟨?_, by decide, by decide, by decide⟩
  intro env allLinks storage target b
  unfold run_comprehensive_scraping
  have hwf := processCompLinks_wf env target (get_existing_pdf_urls storage)
    allLinks [] (by simp) (by simp)
  rw [countBranch_flatten b _ hwf.1 (fun q hq => (hwf.2 q hq).2)]
  unfold bdGet
  cases hf : (processCompLinks env target (get_existing_pdf_urls storage) allLinks []).find?
      (fun p => p.1 = b) with
  | none => simp
  | some q =>
    have hq : q ∈ processCompLinks env target (get_existing_pdf_urls storage) allLinks [] :=
      List.mem_of_find?_eq_some hf
    exact (hwf.2 q hq).1

/-- Invariants of the by-branch link loop (`run_branch_scraping`'s inner
loop): the URL set only grows, every accepted record's URL lands in the
set, accepted URLs stay duplicate-free, and every newly accepted record's
URL was absent from the incoming set. -/
theorem processBranchLinks_inv (env : ScrapeEnv) (target : Nat) :
    ∀ (links : List BranchLink) (existing : List String) (acc : List DocRecord)
      (count : Nat),
      (acc.map (fun d => d.pdf_url)).Nodup →
      (∀ d ∈ acc, d.pdf_url ∈ existing) →
      (∀ u ∈ existing, u ∈ (processBranchLinks env target links existing acc count).1) ∧
      (∀ d ∈ (processBranchLinks env target links existing acc count).2,
         d.pdf_url ∈ (processBranchLinks env target links existing acc count).1) ∧
      ((processBranchLinks env target links existing acc count).2.map
        (fun d => d.pdf_url)).Nodup ∧
      (∀ d ∈ (processBranchLinks env target links existing acc count).2,
         d ∈ acc ∨ d.pdf_url ∉ existing) := by
  intro links
  induction links with
  | nil =>
    intro existing acc count h1 h2
    exact ⟨fun u hu => hu, h2, h1, fun d hd => Or.inl hd⟩
  | cons l ls ih =>
    intro existing acc count h1 h2
    simp only [processBranchLinks]
    split
    · next hcond =>
      obtain ⟨hnotin, _⟩ := hcond
      have hpdf : (extract_document_info_branch env l).pdf_url = l.url := rfl
      have h1' : ((acc ++ [extract_document_info_branch env l]).map
          (fun d => d.pdf_url)).Nodup := by
        rw [List.map_append, List.nodup_append]
        refine ⟨h1, by simp, ?_⟩
        intro u hu
        simp only [List.map_cons, List.map_nil, List.mem_singleton, hpdf]
        intro hueq
        rcases List.mem_map.mp hu with ⟨d, hd, rfl⟩
        exact hnotin (hueq ▸ h2 d hd)
      have h2' : ∀ d ∈ acc ++ [extract_document_info_branch env l],
          d.pdf_url ∈ existing ++ [l.url] := by
        intro d hd
        rcases List.mem_append.mp hd with hd | hd
        · exact List.mem_append.mpr (Or.inl (h2 d hd))
        · rcases List.mem_singleton.mp hd with rfl
          exact List.mem_append.mpr (Or.inr (by simp [hpdf]))
      obtain ⟨g1, g2, g3, g4⟩ :=
        ih (existing ++ [l.url]) (acc ++ [extract_document_info_branch env l])
          (count + 1) h1' h2'
      refine ⟨?_, g2, g3, ?_⟩
      · intro u hu
        exact g1 u (List.mem_append.mpr (Or.inl hu))
      · intro d hd
        rcases g4 d hd with hd' | hd'
        · rcases List.mem_append.mp hd' with h | h
          · exact Or.inl h
          · rcases List.mem_singleton.mp h with rfl
            exact Or.inr (by rw [hpdf]; exact hnotin)
        · exact Or.inr (fun hmem => hd' (List.mem_append.mpr (Or.inl hmem)))
    · exact ih existing acc count h1 h2

/-- The invariants carried across branches by `runBranchGo`. -/
theorem runBranchGo_inv (env : ScrapeEnv) (site : String → String → List RawLink)
    (storage : List StoredDoc) (target : Nat) :
    ∀ (branches : List (String × String)) (existing : List String)
      (acc : List DocRecord),
      (acc.map (fun d => d.pdf_url)).Nodup →
      (∀ d ∈ acc, d.pdf_url ∈ existing) →
      ((runBranchGo env site storage target branches existing acc).map
        (fun d => d.pdf_url)).Nodup ∧
      (∀ d ∈ runBranchGo env site storage target branches existing acc,
         d ∈ acc ∨ d.pdf_url ∉ existing) := by
  intro branches
  induction branches with
  | nil =>
    intro existing acc h1 h2
    exact ⟨h1, fun d hd => Or.inl hd⟩
  | cons p rest ih =>
    intro existing acc h1 h2
    obtain ⟨bv, bn⟩ := p
    simp only [runBranchGo]
    split
    · exact ih existing acc h1 h2
    · obtain ⟨g1, g2, g3, g4⟩ :=
        processBranchLinks_inv env target (scrape_branch_documents site bv bn)
          existing acc 0 h1 h2
      obtain ⟨k1, k2⟩ :=
        ih (processBranchLinks env target (scrape_branch_documents site bv bn)
             existing acc 0).1
           (processBranchLinks env target (scrape_branch_documents site bv bn)
             existing acc 0).2 g3 g2
      refine ⟨k1, ?_⟩
      intro d hd
      rcases k2 d hd with hd' | hd'
      · rcases g4 d hd' with h | h
        · exact Or.inl h
        · exact Or.inr h
      · exact Or.inr (fun hmem => hd' (g1 _ hmem))

/-- C6 counterexample: `run_comprehensive_scraping` does NOT grow the
in-memory URL set as documents are accepted — the same link occurring twice
on one run's pages is accepted twice, so a pdf_url can be accepted more
than once per run. -/
theorem C6_counterexample :
    (run_comprehensive_scraping envAllPdf [pageLinkN 1, pageLinkN 1] [] 5).map
      (fun d => d.pdf_url) =
    ["https://x/item1.pdf", "https://x/item1.pdf"] := by
  decide

/-- C6 (amended): in `run_branch_scraping` the in-memory URL set is grown
at each acceptance, so within a single run every pdf_url is accepted at
most once (the accepted URLs are pairwise distinct) and no accepted URL was
already known to storage; `run_comprehensive_scraping` by contrast never
grows the set intra-run (see the counterexample). -/
theorem C6_intra_run_dedup (env : ScrapeEnv) (site : String → String → List RawLink)
    (storage : List StoredDoc) (branches : List (String × String)) (target : Nat) :
    ((run_branch_scraping env site storage branches target).map
      (fun d => d.pdf_url)).Nodup ∧
    ((run_branch_scraping env site storage branches target).map
      (fun d => d.pdf_url)).filter
        (fun u => u ∈ get_existing_pdf_urls storage) = [] := by
  obtain ⟨k1, k2⟩ := runBranchGo_inv env site storage target branches
    (get_existing_pdf_urls storage) [] (by simp) (by simp)
  refine ⟨k1, ?_⟩
  apply List.filter_eq_nil_iff.mpr
  intro u hu
  rcases List.mem_map.mp hu with ⟨d, hd, rfl⟩
  rcases k2 d hd with h | h
  · exact absurd h (List.not_mem_nil d)
  · simpa using h

/-- When every link of a branch page is already in the URL set, the
by-branch loop accepts nothing and leaves the state unchanged. -/
theorem processBranchLinks_all_known (env : ScrapeEnv) (target : Nat) :
    ∀ (links : List BranchLink) (existing : List String) (acc : List DocRecord)
      (count : Nat),
      (∀ l ∈ links, l.url ∈ existing) →
      processBranchLinks env target links existing acc count = (existing, acc) := by
  intro links
  induction links with
  | nil => intro existing acc count _; rfl
  | cons l ls ih =>
    intro existing acc count h
    simp only [processBranchLinks]
    rw [if_neg (fun hc => hc.1 (h l (List.mem_cons_self l ls)))]
    exact ih existing acc count (fun l' hl' => h l' (List.mem_cons_of_mem _ hl'))

/-- When every link of every branch page is already in the URL set, a whole
branch run accepts nothing. -/
theorem runBranchGo_all_known (env : ScrapeEnv) (site : String → String → List RawLink)
    (storage : List StoredDoc) (target : Nat) :
    ∀ (branches : List (String × String)) (existing : List String)
      (acc : List DocRecord),
      (∀ p ∈ branches, ∀ r ∈ site p.1 p.2, r.url ∈ existing) →
      runBranchGo env site storage target branches existing acc = acc := by
  intro branches
  induction branches with
  | nil => intro existing acc _; rfl
  | cons p rest ih =>
    intro existing acc h
    obtain ⟨bv, bn⟩ := p
    simp only [runBranchGo]
    split
    · exact ih existing acc (fun p' hp' => h p' (List.mem_cons_of_mem _ hp'))
    · have hlinks : ∀ l ∈ scrape_branch_documents site bv bn, l.url ∈ existing := by
        intro l hl
        rcases List.mem_map.mp hl with ⟨r, hr, rfl⟩
        exact h (bv, bn) (List.mem_cons_self _ _) r hr
      rw [processBranchLinks_all_known env target _ existing acc 0 hlinks]
      exact ih existing acc (fun p' hp' => h p' (List.mem_cons_of_mem _ hp'))

/-- C1 counterexample: rerunning against an unchanged source and the
storage updated with the first run's accepted records does NOT necessarily
accept zero new records — a link rejected by the per-branch quota on the
first run (the sixth of six links at target 5) is not in storage and is
accepted on the second run. -/
theorem C1_counterexample : c1run1.length = 5 ∧ c1run2.length = 1 := by
  exact ⟨by decide, by decide⟩

/-- C1 (amended): the second run of `run_branch_scraping` against an
unchanged source site and the storage extended with the first run's
accepted records accepts zero records, provided every link the site yields
was either already known to storage or accepted (and hence persisted) by
the first run — i.e. the first run left no quota-capped or skipped-branch
leftovers. -/
theorem C1_second_run_empty (env : ScrapeEnv) (site : String → String → List RawLink)
    (storage : List StoredDoc) (branches : List (String × String)) (target : Nat)
    (hcover : ∀ p ∈ branches, ∀ r ∈ site p.1 p.2,
       r.url ∈ get_existing_pdf_urls storage ∨
       r.url ∈ (run_branch_scraping env site storage branches target).map
         (fun d => d.pdf_url)) :
    run_branch_scraping env site
      (storage ++ (run_branch_scraping env site storage branches target).map
        (fun d => ({ pdf_url := d.pdf_url, branch := d.branch } : StoredDoc)))
      branches target = [] := by
  rw [run_branch_scraping]
  apply runBranchGo_all_known
  intro p hp r hr
  have hurls : get_existing_pdf_urls
      (storage ++ (run_branch_scraping env site storage branches target).map
        (fun d => ({ pdf_url := d.pdf_url, branch := d.branch } : StoredDoc))) =
      get_existing_pdf_urls storage ++
        (run_branch_scraping env site storage branches target).map
          (fun d => d.pdf_url) := by
    simp [get_existing_pdf_urls, List.map_map, Function.comp]
  rw [hurls]
  rcases hcover p hp r hr with h | h
  · exact List.mem_append.mpr (Or.inl h)
  · exact List.mem_append.mpr (Or.inr h)

/-- C1 witness: one branch, one link whose URL storage already knows — the
second run (and indeed the first) accepts nothing. -/
theorem C1_second_run_empty_witness :
    run_branch_scraping envAllPdf (fun _ _ => [rawLinkN 1])
      ([({ pdf_url := "https://x/doc1.pdf", branch := "K-(Budget)" } : StoredDoc)] ++
        (run_branch_scraping envAllPdf (fun _ _ => [rawLinkN 1])
          [({ pdf_url := "https://x/doc1.pdf", branch := "K-(Budget)" } : StoredDoc)]
          branchesOne 5).map
          (fun d => ({ pdf_url := d.pdf_url, branch := d.branch } : StoredDoc)))
      branchesOne 5 = [] := by
  exact C1_second_run_empty envAllPdf (fun _ _ => [rawLinkN 1])
    [({ pdf_url := "https://x/doc1.pdf", branch := "K-(Budget)" } : StoredDoc)]
    branchesOne 5 (by decide)

/-- `bduGet` on a cons, mirroring `bdGet_cons`. -/
theorem bduGet_cons (k : String) (us : List String)
    (rest : List (String × List String)) (b : String) :
    bduGet ((k, us) :: rest) b = if k = b then us else bduGet rest b := by
  by_cases hk : k = b
  · simp [bduGet, List.find?, hk]
  · simp [bduGet, List.find?, hk]

/-- Bucket lookup commutes with the URL projection. -/
theorem bduGet_proj (b : String) :
    ∀ (bd : List (String × List DocRecord)),
      bduGet (bdUrls bd) b = (bdGet bd b).map (fun d => d.pdf_url) := by
  intro bd
  induction bd with
  | nil => simp [bdUrls, bduGet, bdGet_nil, List.find?]
  | cons q rest ih =>
    obtain ⟨k, ds⟩ := q
    simp only [bdUrls, List.map_cons]
    rw [bduGet_cons, bdGet_cons]
    by_cases hk : k = b
    · simp [hk]
    · rw [if_neg hk, if_neg hk]
      simpa [bdUrls] using ih

/-- Key insertion commutes with the URL projection. -/
theorem bduEnsure_proj (b : String) (bd : List (String × List DocRecord)) :
    bdUrls (bdEnsure bd b) = bduEnsure (bdUrls bd) b := by
  have hfind : ∀ (bd0 : List (String × List DocRecord)),
      ((bdUrls bd0).find? (fun p => p.1 = b)).isSome =
        (bd0.find? (fun p => p.1 = b)).isSome := by
    intro bd0
    induction bd0 with
    | nil => simp [bdUrls, List.find?]
    | cons q rest ih =>
      obtain ⟨k, ds⟩ := q
      by_cases hk : k = b
      · simp [bdUrls, List.find?, hk]
      · simpa [bdUrls, List.find?, hk] using ih
  unfold bdEnsure bduEnsure
  rw [hfind bd]
  split
  · rfl
  · simp [bdUrls]

/-- Bucket append commutes with the URL projection. -/
theorem bduAppend_proj (b : String) (d : DocRecord) :
    ∀ (bd : List (String × List DocRecord)),
      bdUrls (bdAppend bd b d) = bduAppend (bdUrls bd) b d.pdf_url := by
  intro bd
  induction bd with
  | nil => simp [bdUrls, bdAppend, bduAppend]
  | cons q rest ih =>
    obtain ⟨k, ds⟩ := q
    by_cases hk : k = b
    · subst hk
      simp [bdUrls, bdAppend, bduAppend]
    · simp only [bdAppend, if_neg hk, bdUrls, List.map_cons, bduAppend]
      congr 1

/-- The comprehensive dedup/quota loop projects onto its verification-free
URL mirror: for EVERY environment, which links are accepted (and into which
branch buckets) is decided by the link data alone — never by the
verification outcome, the hash, or the clock. -/
theorem processCompLinks_proj (env : ScrapeEnv) (target : Nat) (existing : List String) :
    ∀ (links : List PageLink) (bd : List (String × List DocRecord)),
      bdUrls (processCompLinks env target existing links bd) =
        processCompUrls target existing links (bdUrls bd) := by
  intro links
  induction links with
  | nil => intro bd; rfl
  | cons l ls ih =>
    intro bd
    simp only [processCompLinks, processCompUrls]
    split
    · have hbr : (extract_document_info_comp env l).branch =
          classify_document_branch l.text l.context l.url l.page_source := rfl
      have hurl : (extract_document_info_comp env l).pdf_url = l.url := rfl
      have hlen : (bdGet (bdEnsure bd (extract_document_info_comp env l).branch)
            (extract_document_info_comp env l).branch).length =
          (bduGet (bduEnsure (bdUrls bd) (extract_document_info_comp env l).branch)
            (extract_document_info_comp env l).branch).length := by
        rw [← bduEnsure_proj, bduGet_proj, List.length_map]
      split
      · next hlt =>
        rw [ih, bduAppend_proj, bduEnsure_proj, ← hbr, ← hurl]
        have hcond : (bduGet (bduEnsure (bdUrls bd)
              (extract_document_info_comp env l).branch)
            (extract_document_info_comp env l).branch).length < target := hlen ▸ hlt
        rw [if_pos hcond]
      · next hge =>
        rw [ih, bduEnsure_proj, ← hbr]
        have hcond : ¬ (bduGet (bduEnsure (bdUrls bd)
              (extract_document_info_comp env l).branch)
            (extract_document_info_comp env l).branch).length < target := by
          intro hc
          exact hge (by rw [hlen]; exact hc)
        rw [if_neg hcond]
    · exact ih bd

/-- C8 counterexample: in `scrape_real.scrape_page_for_pdfs`, a discovered
document whose verification result is `valid=false` IS dropped — it never
reaches the records handed to persistence. -/
theorem C8_counterexample :
    (verify_pdf (envAllInvalid.http "https://x/doc1.pdf") "https://x/doc1.pdf").valid
      = false ∧
    scrape_real_process envAllInvalid 10 [realLink1] = [] := by
  exact ⟨by decide, by decide⟩

/-- C8 (amended): in `run_comprehensive_scraping` verification is advisory:
the accepted URL sequence is identical under any two environments (so a
`valid=false` outcome never causes a document to be dropped), and a
concrete invalid document is stored carrying its fallback URL, status
message and navigation route.  In `scrape_real.scrape_page_for_pdfs`,
however, failed verification drops the document (see the
counterexample). -/
theorem C8_verification_advisory :
    (∀ (env1 env2 : ScrapeEnv) (allLinks : List PageLink)
        (storage : List StoredDoc) (target : Nat),
        (run_comprehensive_scraping env1 allLinks storage target).map
          (fun d => d.pdf_url) =
        (run_comprehensive_scraping env2 allLinks storage target).map
          (fun d => d.pdf_url)) ∧
    run_comprehensive_scraping envLanding [pageLinkN 1] [] 5 =
      [{ gr_no := "Unknown", date := "2025-01-01", subject_en := "budget",
         subject_ur := some "", branch := "K-(Budget)",
         pdf_url := "https://x/item1.pdf", pdf_valid := false,
         fallback_url := some "https://x/landing.html",
         pdf_status := "PDF not directly accessible - use fallback page link",
         navigation_route := "Home Page → PageX",
         scraped_at := "2025-01-01T00:00:00", source_page := some "PageX",
         source_page_url := "https://x/p.html" }] := by
  constructor
  · intro env1 env2 allLinks storage target
    have key : ∀ (env : ScrapeEnv),
        (run_comprehensive_scraping env allLinks storage target).map
          (fun d => d.pdf_url) =
        ((processCompUrls target (get_existing_pdf_urls storage) allLinks []).map
          (fun p => p.2)).flatten := by
      intro env
      unfold run_comprehensive_scraping
      rw [List.map_flatten]
      have hproj := processCompLinks_proj env target (get_existing_pdf_urls storage)
        allLinks []
      have hnil : bdUrls ([] : List (String × List DocRecord)) = [] := rfl
      rw [hnil] at hproj
      rw [← hproj]
      simp only [bdUrls, List.map_map]
      rfl
    rw [key env1, key env2]
  · decide

/-- With a storage client that never fails, the batching loop inserts every
record and reports success. -/
theorem insertBatchesDb_ok (insertFails : List DocRecord → Bool) (bs : Nat)
    (hok : ∀ b, insertFails b = false) :
    ∀ (fuel : Nat) (docs : List DocRecord), docs.length ≤ fuel →
      insertBatchesDb insertFails bs fuel docs = (true, docs) := by
  intro fuel
  induction fuel with
  | zero =>
    intro docs h
    have hnil : docs = [] := List.eq_nil_of_length_eq_zero (Nat.le_zero.mp h)
    subst hnil
    rfl
  | succ fuel ih =>
    intro docs h
    cases docs with
    | nil => rfl
    | cons d ds =>
      simp only [insertBatchesDb, hok, Bool.false_eq_true, if_false]
      have hlen : (ds.drop (bs - 1)).length ≤ fuel := by
        rw [List.length_drop]
        simp only [List.length_cons] at h
        omega
      rw [ih (ds.drop (bs - 1)) hlen]
      simp [List.take_append_drop]

/-- C5 counterexample: `DatabaseManager.insert_documents` has NO per-record
fallback — with one malformed record in the (single) batch, the whole call
fails and inserts nothing, although the remaining record would have been
accepted individually. -/
theorem C5_counterexample :
    insert_documents failsOnBad false 25 [docBad, docGood] = (false, []) ∧
    failsOnBad [docGood] = false := by
  exact ⟨by decide, by decide⟩

/-- C5 (amended): `DatabaseManager.insert_documents` inserts in batches and
succeeds on a never-failing client; but a failure of the FIRST batch makes
it return `False` having inserted nothing — no per-record retry happens.
The fallback loop the claim describes lives in
`insert_correct_schema.insert_branch_documents`: there a failing batch is
retried record by record, so every record of the batch that does not fail
individually is still inserted. -/
theorem C5_insert_fallback :
    (∀ (insertFails : List DocRecord → Bool) (bs : Nat) (docs : List DocRecord),
        (∀ b, insertFails b = false) →
        insert_documents insertFails false bs docs = (true, docs)) ∧
    (∀ (insertFails : List DocRecord → Bool) (bs : Nat) (d : DocRecord)
        (ds : List DocRecord),
        insertFails (d :: ds.take (bs - 1)) = true →
        insert_documents insertFails false bs (d :: ds) = (false, [])) ∧
    (∀ (batchFails : List InsDoc → Bool) (singleFails : InsDoc → Bool) (bs : Nat)
        (d : InsDoc) (ds : List InsDoc) (x : InsDoc),
        batchFails (d :: ds.take (bs - 1)) = true →
        x ∈ d :: ds.take (bs - 1) → singleFails x = false →
        x ∈ (insert_branch_documents batchFails singleFails bs (d :: ds)).2) := by
  refine ⟨?_, ?_, ?_⟩
  · intro insertFails bs docs hok
    unfold insert_documents
    rw [if_neg (by simp)]
    exact insertBatchesDb_ok insertFails bs hok docs.length docs (Nat.le_refl _)
  · intro insertFails bs d ds hfail
    unfold insert_documents
    rw [if_neg (by simp)]
    simp only [List.length_cons, insertBatchesDb, hfail, if_true]
  · intro batchFails singleFails bs d ds x hbatch hx hsf
    unfold insert_branch_documents
    simp only [List.length_cons, insertBatchesFallback, hbatch, if_true]
    apply List.mem_append.mpr
    left
    exact List.mem_filter.mpr ⟨hx, by simp [hsf]⟩

/-- C5 witness: the three parts applied to concrete records — an
all-success insert, the abort-on-first-batch-failure of
`insert_documents`, and the per-record fallback of
`insert_branch_documents` still inserting the good record of a failing
batch. -/
theorem C5_insert_fallback_witness :
    insert_documents (fun _ => false) false 25 [docGood] = (true, [docGood]) ∧
    insert_documents failsOnBad false 25 [docBad, docGood] = (false, []) ∧
    toInsDoc docGood ∈
      (insert_branch_documents failsOnBadIns singleFailsBadIns 20
        [toInsDoc docBad, toInsDoc docGood]).2 := by
  refine ⟨?_, ?_, ?_⟩
  · exact C5_insert_fallback.1 (fun _ => false) 25 [docGood] (fun _ => rfl)
  · exact C5_insert_fallback.2.1 failsOnBad 25 docBad [docGood] (by decide)
  · exact C5_insert_fallback.2.2 failsOnBadIns singleFailsBadIns 20
      (toInsDoc docBad) [toInsDoc docGood] (toInsDoc docGood)
      (by decide) (by decide) (by decide)

end Finbot
